import Mathlib

/-!
Shallow embedding of the order-placement pipeline of the E-commerce
repository: cart, coupons, inventory and orders, translated from
src/orders/views.py, src/orders/utils/coupon.py, src/orders/signals.py,
src/orders/models.py, src/inventory/models.py and src/products/models.py.

Money amounts (Django DecimalField values) are modelled as rationals; the
arithmetic the code performs on them (multiplication, division by 100,
min) is exact at these magnitudes.  Database tables are lists of rows;
QuerySet filters, first(), update() and delete() become list operations.
A `transaction.atomic` block is modelled by its savepoint semantics: when
the block is left by a raised exception, the state is rolled back to its
value at block entry; when the block is left normally, the threaded state
stands.
-/

deriving instance DecidableEq for Except

namespace ECom

/-- Order status choices (orders/models.py, Order.STATUS_CHOICES). -/
inductive OrderStatus
  | pending
  | confirmed
  | shipped
  | out_for_delivery
  | delivered
  | cancelled
  | returned
deriving DecidableEq

/-- Product row (products/models.py).  The Django model has neither a
price nor a quantity field; the `price` field here is modelled from the
spec (§4.5 Catalog Reader, `UnitPrice(product, variant?)`), because the
order views read `item.product.price` for variant-less lines. -/
structure Product where
  id : Nat
  store : Nat
  price : ℚ
deriving DecidableEq

/-- ProductVariant row (products/models.py): a price and its own quantity
counter, the one mutated by the signal handlers in orders/signals.py. -/
structure Variant where
  id : Nat
  productId : Nat
  price : ℚ
  quantity : Nat
deriving DecidableEq

/-- CartItem row (orders/models.py); unique per (user, product, variation). -/
structure CartItem where
  user : Nat
  product : Nat
  variation : Option Nat
  quantity : Nat
deriving DecidableEq

/-- Inventory row (inventory/models.py); unique per (store, product, variation). -/
structure InventoryRec where
  store : Nat
  product : Nat
  variation : Option Nat
  quantity : Nat
deriving DecidableEq

/-- Coupon row (orders/models.py).  The field `total_user_limit` is
modelled from the spec (§3 data model, `total_user_limit?`): it is read
by orders/utils/coupon.py but absent from orders/models.py. -/
structure Coupon where
  id : Nat
  code : String
  discount_percent : ℚ
  max_discount_amount : Option ℚ
  min_order_amount : ℚ
  usage_limit_per_user : Nat
  total_user_limit : Option Nat
  active : Bool
  start_date : Int
  end_date : Int
deriving DecidableEq

/-- CouponUsage row (orders/models.py); unique per (coupon, user). -/
structure CouponUsage where
  coupon : Nat
  user : Nat
  times_used : Nat
deriving DecidableEq

/-- Order row (orders/models.py). -/
structure Order where
  id : Nat
  user : Nat
  coupon : Option Nat
  subtotal : ℚ
  discount_amount : ℚ
  total_amount : ℚ
  status : OrderStatus
  reordered_from : Option Nat
deriving DecidableEq

/-- OrderItem row (orders/models.py): the price is snapshotted at order time. -/
structure OrderItem where
  order : Nat
  product : Nat
  variation : Option Nat
  quantity : Nat
  price : ℚ
deriving DecidableEq

/-- OrderTracking row (orders/models.py). -/
structure Tracking where
  order : Nat
  status : OrderStatus
  note : String
deriving DecidableEq

/-- The database state visible to the order pipeline. -/
structure DB where
  products : List Product
  variants : List Variant
  inventory : List InventoryRec
  cart : List CartItem
  coupons : List Coupon
  usages : List CouponUsage
  orders : List Order
  orderItems : List OrderItem
  tracking : List Tracking
deriving DecidableEq

/-- Product lookup by primary key (the select_related join on product). -/
def DB.findProduct (db : DB) (pid : Nat) : Option Product :=
  db.products.find? (fun p => p.id == pid)

/-- Variant lookup by primary key (the select_related join on variation). -/
def DB.findVariant (db : DB) (vid : Nat) : Option Variant :=
  db.variants.find? (fun v => v.id == vid)

/-- Coupon.objects.get(code=coupon_code, active=True)
(orders/utils/coupon.py lines 20-23); the code column is unique. -/
def DB.findActiveCoupon (db : DB) (code : String) : Option Coupon :=
  db.coupons.find? (fun c => c.code == code && c.active)

/-- Modelled from the spec: `Coupon.is_within_date`, called at
orders/utils/coupon.py line 28 but not defined in orders/models.py; spec
§4.2 step 2 reads `check now within [start_date, end_date]`. -/
def Coupon.is_within_date (c : Coupon) (now : Int) : Bool :=
  c.start_date ≤ now && now ≤ c.end_date

/-- Modelled from the spec: `Coupon.deactivate`, called at
orders/utils/coupon.py lines 29 and 43 but not defined in
orders/models.py; spec §4.2 reads `flip active=false` — a row update
issued through the enclosing transaction. -/
def DB.deactivateCoupon (db : DB) (cid : Nat) : DB :=
  { db with coupons :=
      db.coupons.map (fun c => if c.id == cid then { c with active := false } else c) }

/-- CouponUsage.objects.filter(coupon=coupon).values("user").distinct().count()
(orders/utils/coupon.py lines 38-40). -/
def DB.distinctUsersUsed (db : DB) (cid : Nat) : Nat :=
  (((db.usages.filter (fun x => x.coupon == cid)).map (fun x => x.user)).dedup).length

/-- The times_used value the usage row for (coupon, user) holds, 0 when no
row exists — the value get_or_create hands back either way. -/
def DB.usageTimes (db : DB) (cid u : Nat) : Nat :=
  match db.usages.find? (fun x => x.coupon == cid && x.user == u) with
  | some x => x.times_used
  | none => 0

/-- CouponUsage.objects.get_or_create(coupon=coupon, user=user)
(orders/utils/coupon.py lines 47-50): insert a row with the default
times_used = 0 when none exists. -/
def DB.ensureUsage (db : DB) (cid u : Nat) : DB :=
  match db.usages.find? (fun x => x.coupon == cid && x.user == u) with
  | some _ => db
  | none => { db with usages := db.usages ++ [⟨cid, u, 0⟩] }

/-- Python truthiness of the optional max_discount_amount: None and 0 are
falsy, every other value truthy (`if coupon.max_discount_amount:`). -/
def optTruthy : Option ℚ → Bool
  | none => false
  | some m => m != 0

/-- Discount computation (orders/utils/coupon.py lines 58-62):
subtotal * discount_percent / 100, then capped at max_discount_amount when
that field is truthy.  No zero floor and no cap at the subtotal is applied. -/
def couponDiscount (c : Coupon) (subtotal : ℚ) : ℚ :=
  let d := subtotal * c.discount_percent / 100
  if optTruthy c.max_discount_amount then min d (c.max_discount_amount.getD 0) else d

/-- Validation failures of orders/utils/coupon.py, by kind. -/
inductive CouponErr
  | couponNotFound
  | couponExpired
  | orderBelowMinimum
  | couponExhausted
  | perUserLimitExceeded
deriving DecidableEq

/-- Steps 5 and 6 of validate_and_calculate_coupon (orders/utils/coupon.py
lines 46-64): get-or-create the usage row, enforce the per-user limit —
only when usage_limit_per_user is truthy and positive — then compute the
discount. -/
def validateUsageStep (db : DB) (c : Coupon) (u : Nat) (subtotal : ℚ) :
    Except CouponErr (ℚ × Coupon) × DB :=
  let t := db.usageTimes c.id u
  let db1 := db.ensureUsage c.id u
  if 0 < c.usage_limit_per_user ∧ c.usage_limit_per_user ≤ t then
    (.error .perUserLimitExceeded, db1)
  else
    (.ok (couponDiscount c subtotal, c), db1)

/-- Body of validate_and_calculate_coupon (orders/utils/coupon.py lines
19-64), threading the database through its writes; each raise site returns
the error together with the state as written so far.  The enclosing
savepoint rollback is applied by `validate_and_calculate_coupon` below. -/
def validateBody (db : DB) (code : String) (u : Nat) (subtotal : ℚ) (now : Int) :
    Except CouponErr (ℚ × Coupon) × DB :=
  match db.findActiveCoupon code with
  | none => (.error .couponNotFound, db)
  | some c =>
    if ¬ c.is_within_date now then
      (.error .couponExpired, db.deactivateCoupon c.id)
    else if subtotal < c.min_order_amount then
      (.error .orderBelowMinimum, db)
    else
      match c.total_user_limit with
      | some lim =>
        if lim ≤ db.distinctUsersUsed c.id then
          (.error .couponExhausted, db.deactivateCoupon c.id)
        else validateUsageStep db c u subtotal
      | none => validateUsageStep db c u subtotal

/-- validate_and_calculate_coupon (orders/utils/coupon.py): the body runs
inside `with transaction.atomic()`, so when it raises, the savepoint
rollback restores the state at entry and the ValueError propagates to the
caller; on success the threaded state stands. -/
def validate_and_calculate_coupon (db : DB) (code : String) (u : Nat)
    (subtotal : ℚ) (now : Int) : Except CouponErr (ℚ × Coupon) × DB :=
  match validateBody db code u subtotal now with
  | (.ok r, db1) => (.ok r, db1)
  | (.error e, _) => (.error e, db)

/-- Failure kinds PlaceOrderAPI.post surfaces as 400 responses, plus
`brokenRef` for a dangling foreign key (impossible in the real database,
where the joins of select_related always resolve). -/
inductive PlaceErr
  | emptyCart
  | missingInventoryRecord (product : Nat)
  | insufficientStock (product : Nat)
  | couponError (e : CouponErr)
  | brokenRef
deriving DecidableEq

/-- Lookup key of an inventory row: the (store, product, variation) triple. -/
structure InvKey where
  store : Nat
  product : Nat
  variation : Option Nat
deriving DecidableEq

/-- The filter of PlaceOrderAPI.post lines 272-277: match on store and
product, and on the exact variation (isnull when the line has none). -/
def invMatches (k : InvKey) (r : InventoryRec) : Bool :=
  r.store == k.store && r.product == k.product && r.variation == k.variation

/-- inventory_qs.first() on the filtered queryset. -/
def DB.findInventory (db : DB) (k : InvKey) : Option InventoryRec :=
  db.inventory.find? (invMatches k)

/-- Resolve a cart line's product row and optional variant row (the
select_related join; foreign keys cannot dangle in the real database). -/
def resolveLine (db : DB) (item : CartItem) : Option (Product × Option Variant) :=
  match db.findProduct item.product with
  | none => none
  | some p =>
    match item.variation with
    | none => some (p, none)
    | some vid =>
      match db.findVariant vid with
      | none => none
      | some v => some (p, some v)

/-- Line unit price (`item.variation.price if item.variation else
item.product.price`, orders/views.py lines 294 and 329). -/
def unitPrice (p : Product) (v : Option Variant) : ℚ :=
  match v with
  | some w => w.price
  | none => p.price

/-- The inventory key a cart line addresses (store of the line's product,
the product, the line's variation). -/
def lineKey (p : Product) (item : CartItem) : InvKey :=
  ⟨p.store, p.id, item.variation⟩

/-- The key of a cart line after resolution (only meaningful when
`resolveLine` succeeds, which every successful check guarantees). -/
def itemKey (db : DB) (item : CartItem) : InvKey :=
  match resolveLine db item with
  | some (p, _) => lineKey p item
  | none => ⟨0, 0, none⟩

/-- The stock figure used for one cart line (PlaceOrderAPI.post lines
280-287): the inventory row's quantity when a row exists; otherwise the
variant's quantity; otherwise `getattr(item.product, "quantity", 0)`,
which yields the default 0 because Product has no quantity field.  Every
branch produces a value, so the `available_quantity is None` test of
line 289 can never fire. -/
def availableQuantity (db : DB) (k : InvKey) (v : Option Variant) : Option Nat :=
  match db.findInventory k with
  | some r => some r.quantity
  | none =>
    match v with
    | some w => some w.quantity
    | none => some 0

/-- The stock-check loop of PlaceOrderAPI.post (lines 271-297): per line,
resolve product and variant, determine available stock, reject on a
shortfall, accumulate the subtotal and record (key, quantity) for the
deferred inventory update.  No database write happens here. -/
def checkLoop (db : DB) : List CartItem → ℚ → List (InvKey × Nat) →
    Except PlaceErr (ℚ × List (InvKey × Nat))
  | [], s, acc => .ok (s, acc.reverse)
  | item :: rest, s, acc =>
    match resolveLine db item with
    | none => .error .brokenRef
    | some (p, v) =>
      match availableQuantity db (lineKey p item) v with
      | none => .error (.missingInventoryRecord p.id)
      | some q =>
        if q < item.quantity then .error (.insufficientStock p.id)
        else
          checkLoop db rest (s + unitPrice p v * (item.quantity : ℚ))
            ((lineKey p item, item.quantity) :: acc)

/-- The deferred inventory update (PlaceOrderAPI.post lines 339-341): for
each saved queryset, when a matching row exists, decrement every matching
row by the line quantity. -/
def applyInventoryUpdates (inv : List InventoryRec) :
    List (InvKey × Nat) → List InventoryRec
  | [] => inv
  | (k, q) :: rest =>
    let inv1 :=
      if inv.any (invMatches k) then
        inv.map (fun r => if invMatches k r then { r with quantity := r.quantity - q } else r)
      else inv
    applyInventoryUpdates inv1 rest

/-- Step 8 of Place Order (orders/views.py lines 346-349): get_or_create
the (coupon, user) usage row, then save times_used = F(times_used) + 1. -/
def DB.incrementUsage (db : DB) (cid u : Nat) : DB :=
  let db1 := db.ensureUsage cid u
  { db1 with usages :=
      db1.usages.map (fun x =>
        if x.coupon == cid && x.user == u then { x with times_used := x.times_used + 1 } else x) }

/-- Coupon resolution inside Place Order (orders/views.py lines 302-309):
no coupon code means zero discount and no coupon; otherwise
validate_and_calculate_coupon runs, and its ValueError is caught and
turned into a 400 response by the caller. -/
def couponStep (db : DB) (u : Nat) (code : Option String) (subtotal : ℚ) (now : Int) :
    Except CouponErr (ℚ × Option Coupon) × DB :=
  match code with
  | none => (.ok (0, none), db)
  | some cc =>
    match validate_and_calculate_coupon db cc u subtotal now with
    | (.ok (d, c), db1) => (.ok (d, some c), db1)
    | (.error e, db1) => (.error e, db1)

/-- The Order row Place Order creates (orders/views.py lines 316-323):
status pending, total_amount = subtotal - discount. -/
def mkOrder (oid u : Nat) (coupon : Option Coupon) (subtotal discount : ℚ) : Order :=
  { id := oid, user := u, coupon := coupon.map (fun c => c.id), subtotal := subtotal,
    discount_amount := discount, total_amount := subtotal - discount,
    status := .pending, reordered_from := none }

/-- The OrderItem rows of the second loop (orders/views.py lines 328-336),
snapshotting the current unit price; the 0 default is unreachable after a
successful check loop. -/
def mkOrderItems (db : DB) (oid : Nat) (items : List CartItem) : List OrderItem :=
  items.map (fun item =>
    let price :=
      match resolveLine db item with
      | some (p, v) => unitPrice p v
      | none => 0
    { order := oid, product := item.product, variation := item.variation,
      quantity := item.quantity, price := price })

/-- The write phase of a successful Place Order (orders/views.py lines
316-355): create the Order and its OrderItems, decrement inventory,
increment coupon usage when a coupon was applied, append the tracking row,
delete the user's cart lines. -/
def finalize (db : DB) (u oid : Nat) (items : List CartItem) (subtotal discount : ℚ)
    (coupon : Option Coupon) (upd : List (InvKey × Nat)) : DB :=
  let dbA := { db with orders := db.orders ++ [mkOrder oid u coupon subtotal discount] }
  let dbB := { dbA with orderItems := dbA.orderItems ++ mkOrderItems dbA oid items }
  let dbC := { dbB with inventory := applyInventoryUpdates dbB.inventory upd }
  let dbD :=
    match coupon with
    | some c => dbC.incrementUsage c.id u
    | none => dbC
  let trackRow : Tracking := { order := oid, status := .pending, note := "Order placed" }
  let dbE := { dbD with tracking := dbD.tracking ++ [trackRow] }
  { dbE with cart := dbE.cart.filter (fun ci => ci.user != u) }

/-- PlaceOrderAPI.post (orders/views.py lines 257-358).  The view runs
under transaction.atomic; its failure paths return 400 responses without
raising, so the state threaded up to the return point is committed — the
atomicity theorem shows that state always equals the initial one. -/
def place_order (db : DB) (u : Nat) (code : Option String) (now : Int) (oid : Nat) :
    Except PlaceErr Order × DB :=
  let items := db.cart.filter (fun ci => ci.user == u)
  if items.isEmpty then (.error .emptyCart, db)
  else
    match checkLoop db items 0 [] with
    | .error e => (.error e, db)
    | .ok (subtotal, upd) =>
      match couponStep db u code subtotal now with
      | (.error e, db1) => (.error (.couponError e), db1)
      | (.ok (discount, coupon), db1) =>
        (.ok (mkOrder oid u coupon subtotal discount),
          finalize db1 u oid items subtotal discount coupon upd)

/-- Failures of CartApplyCouponAPI.post. -/
inductive ApplyErr
  | emptyCart
  | coupon (e : CouponErr)
  | brokenRef
deriving DecidableEq

/-- The subtotal computation of CartApplyCouponAPI.post (orders/views.py
lines 112-115). -/
def cartSubtotal (db : DB) : List CartItem → Option ℚ
  | [] => some 0
  | item :: rest =>
    match resolveLine db item with
    | none => none
    | some (p, v) =>
      match cartSubtotal db rest with
      | none => none
      | some s => some (unitPrice p v * (item.quantity : ℚ) + s)

/-- CartApplyCouponAPI.post (orders/views.py lines 96-132): the coupon
preview.  It computes the cart subtotal, runs
validate_and_calculate_coupon, and answers (subtotal, discount, total)
without creating an order; it runs under transaction.atomic and catches
the ValueError, returning a 400 response, so the state threaded to the
return point is committed. -/
def cart_apply_coupon (db : DB) (u : Nat) (code : String) (now : Int) :
    Except ApplyErr (ℚ × ℚ × ℚ) × DB :=
  let items := db.cart.filter (fun ci => ci.user == u)
  if items.isEmpty then (.error .emptyCart, db)
  else
    match cartSubtotal db items with
    | none => (.error .brokenRef, db)
    | some s =>
      match validate_and_calculate_coupon db code u s now with
      | (.ok (d, _), db1) => (.ok (s, d, s - d), db1)
      | (.error e, db1) => (.error (.coupon e), db1)

/-- Failures of the post-commit stock hooks of orders/signals.py: an order
item without a variant raises AttributeError on `item.variation.quantity`
or `item.variation.id`; a short variant raises the explicit Exception of
lines 33-36. -/
inductive SignalErr
  | missingVariant
  | insufficientVariantStock (product : Nat)
deriving DecidableEq

/-- The deduction loop of decrease_stock_on_confirm (orders/signals.py
lines 29-40): per order item, check the variant quantity and decrement the
ProductVariant row.  The hook runs post-commit, so items handled before a
failure keep their decrements. -/
def deductItems : DB → List OrderItem → Except SignalErr Unit × DB
  | db, [] => (.ok (), db)
  | db, it :: rest =>
    match it.variation with
    | none => (.error .missingVariant, db)
    | some vid =>
      match db.findVariant vid with
      | none => (.error .missingVariant, db)
      | some v =>
        if v.quantity < it.quantity then (.error (.insufficientVariantStock it.product), db)
        else
          deductItems
            { db with variants :=
                db.variants.map (fun w =>
                  if w.id == vid then { w with quantity := w.quantity - it.quantity } else w) }
            rest

/-- The restore loop of restore_stock_on_cancel (orders/signals.py lines
58-62): add each order item's quantity back onto its ProductVariant row.
Inventory rows are never touched. -/
def restoreItems : DB → List OrderItem → Except SignalErr Unit × DB
  | db, [] => (.ok (), db)
  | db, it :: rest =>
    match it.variation with
    | none => (.error .missingVariant, db)
    | some vid =>
      restoreItems
        { db with variants :=
            db.variants.map (fun w =>
              if w.id == vid then { w with quantity := w.quantity + it.quantity } else w) }
        rest

/-- Saving an order under a new status and running the post_save stock
signals of orders/signals.py, with tracker.previous("status") equal to the
stored status: decrease_stock_on_confirm fires when the status becomes
confirmed from a different previous status; restore_stock_on_cancel fires
when a confirmed order becomes cancelled or returned. -/
def update_order_status (db : DB) (oid : Nat) (newStatus : OrderStatus) :
    Except SignalErr Unit × DB :=
  match db.orders.find? (fun o => o.id == oid) with
  | none => (.ok (), db)
  | some o =>
    let prev := o.status
    let savedOrders := db.orders.map (fun x => if x.id == oid then { x with status := newStatus } else x)
    let db1 := { db with orders := savedOrders }
    let items := db1.orderItems.filter (fun it => it.order == oid)
    if prev ≠ .confirmed ∧ newStatus = .confirmed then deductItems db1 items
    else if prev = .confirmed ∧ (newStatus = .cancelled ∨ newStatus = .returned) then
      restoreItems db1 items
    else (.ok (), db1)

/-- Failures of ReOrderAPI.post. -/
inductive ReorderErr
  | orderNotFound
  | missingInventoryRecord (product : Nat)
  | insufficientStock (product : Nat)
  | brokenRef
deriving DecidableEq

/-- Modelled from the spec: `Inventory.get_inventory`, called at
orders/views.py line 375 but not defined in inventory/models.py; spec §4.1
reads `GetLocked(store, product, variant) -> Record | NotFound` — the
inventory row for the triple, or nothing. -/
def get_inventory (db : DB) (k : InvKey) : Option InventoryRec :=
  db.findInventory k

/-- Current unit price of a (product, variation) pair, as the re-order
loops read it (`item.variation.price if item.variation else
item.product.price`, orders/views.py lines 393 and 408). -/
def currentPrice (db : DB) (pid : Nat) (vid : Option Nat) : Option ℚ :=
  match db.findProduct pid with
  | none => none
  | some p =>
    match vid with
    | none => some p.price
    | some w =>
      match db.findVariant w with
      | none => none
      | some v => some v.price

/-- The re-order check loop (orders/views.py lines 373-393): per original
order item, require an inventory row for the triple (no fallback here),
require sufficient stock, and accumulate quantity times the current price. -/
def reorderCheck (db : DB) : List OrderItem → ℚ → Except ReorderErr ℚ
  | [], s => .ok s
  | it :: rest, s =>
    match db.findProduct it.product with
    | none => .error .brokenRef
    | some p =>
      match get_inventory db ⟨p.store, p.id, it.variation⟩ with
      | none => .error (.missingInventoryRecord p.id)
      | some inv =>
        if inv.quantity < it.quantity then .error (.insufficientStock p.id)
        else
          match currentPrice db it.product it.variation with
          | none => .error .brokenRef
          | some pr => reorderCheck db rest (s + (it.quantity : ℚ) * pr)

/-- The OrderItem rows the re-order creates (orders/views.py lines
407-415), snapshotting the current price; the 0 default is unreachable
after a successful check loop. -/
def reorderItems (db : DB) (oid : Nat) (items : List OrderItem) : List OrderItem :=
  items.map (fun it =>
    { order := oid, product := it.product, variation := it.variation,
      quantity := it.quantity, price := (currentPrice db it.product it.variation).getD 0 })

/-- The stock deduction of the re-order (orders/views.py lines 416-419):
decrement the inventory row of each original line by its quantity. -/
def reorderDeduct : DB → List OrderItem → DB
  | db, [] => db
  | db, it :: rest =>
    let db1 :=
      match db.findProduct it.product with
      | none => db
      | some p =>
        { db with inventory :=
            db.inventory.map (fun r =>
              if invMatches ⟨p.store, p.id, it.variation⟩ r then
                { r with quantity := r.quantity - it.quantity }
              else r) }
    reorderDeduct db1 rest

/-- ReOrderAPI.post (orders/views.py lines 363-429): re-validate current
stock for each original line, create a new pending order at current prices
with no coupon (discount 0, total = subtotal, reordered_from set), create
its items and decrement inventory, and append a tracking row. -/
def re_order (db : DB) (u oldId newId : Nat) : Except ReorderErr Order × DB :=
  match db.orders.find? (fun o => o.id == oldId && o.user == u) with
  | none => (.error .orderNotFound, db)
  | some old =>
    let items := db.orderItems.filter (fun it => it.order == oldId)
    match reorderCheck db items 0 with
    | .error e => (.error e, db)
    | .ok subtotal =>
      let order : Order :=
        { id := newId, user := u, coupon := none, subtotal := subtotal,
          discount_amount := 0, total_amount := subtotal, status := .pending,
          reordered_from := some old.id }
      let trackRow : Tracking :=
        { order := newId, status := .pending,
          note := "Reordered with current prices (no coupon applied)" }
      let db1 := { db with orders := db.orders ++ [order] }
      let db2 := { db1 with orderItems := db1.orderItems ++ reorderItems db1 newId items }
      let db3 := reorderDeduct db2 items
      let db4 := { db3 with tracking := db3.tracking ++ [trackRow] }
      (.ok order, db4)

/-- A store-1 product with unit price 100, id 1. -/
def prod1 : Product := { id := 1, store := 1, price := 100 }

/-- Variant 1 of product 1: price 100, five in its own quantity counter. -/
def var1 : Variant := { id := 1, productId := 1, price := 100, quantity := 5 }

/-- Inventory row for (store 1, product 1, variant 1) holding 5. -/
def invRow1 : InventoryRec := { store := 1, product := 1, variation := some 1, quantity := 5 }

/-- Cart line: user 1 wants 3 of product 1, variant 1. -/
def cartLine1 : CartItem := { user := 1, product := 1, variation := some 1, quantity := 3 }

/-- Database for the double-deduction scenario: stocked inventory row and
variant counter, one cart line, no coupons. -/
def dbDouble : DB :=
  { products := [prod1], variants := [var1], inventory := [invRow1], cart := [cartLine1],
    coupons := [], usages := [], orders := [], orderItems := [], tracking := [] }

/-- Database with no inventory row at all for the fallback scenario. -/
def dbNoInv : DB :=
  { products := [prod1], variants := [var1], inventory := [], cart := [cartLine1],
    coupons := [], usages := [], orders := [], orderItems := [], tracking := [] }

/-- The empty database. -/
def dbEmpty : DB :=
  { products := [], variants := [], inventory := [], cart := [], coupons := [],
    usages := [], orders := [], orderItems := [], tracking := [] }

/-- An active coupon with a negative discount_percent; nothing in the
validation path rejects it. -/
def couponNeg : Coupon :=
  { id := 10, code := "NEG", discount_percent := -10, max_discount_amount := none,
    min_order_amount := 0, usage_limit_per_user := 1, total_user_limit := none,
    active := true, start_date := 0, end_date := 10 }

/-- Database holding only the negative-percent coupon. -/
def dbNeg : DB := { dbEmpty with coupons := [couponNeg] }

/-- The SAVE10 coupon of spec scenario 2: percent 10, cap 50, minimum 100. -/
def couponSave : Coupon :=
  { id := 11, code := "SAVE10", discount_percent := 10, max_discount_amount := some 50,
    min_order_amount := 100, usage_limit_per_user := 1, total_user_limit := none,
    active := true, start_date := 0, end_date := 10 }

/-- Cart line summing to 1000 for user 7: ten units of the price-100 product. -/
def cartLineSave : CartItem := { user := 7, product := 1, variation := none, quantity := 10 }

/-- Database for spec scenario 2. -/
def dbSave : DB :=
  { dbEmpty with
    products := [prod1], cart := [cartLineSave], coupons := [couponSave] }

/-- A coupon whose usage_limit_per_user is 0, which the code treats as no
limit at all. -/
def couponZeroLimit : Coupon :=
  { id := 12, code := "ZERO", discount_percent := 10, max_discount_amount := none,
    min_order_amount := 0, usage_limit_per_user := 0, total_user_limit := none,
    active := true, start_date := 0, end_date := 10 }

/-- Database with the zero-limit coupon and an existing usage row with
times_used = 0 ≥ 0 for user 1. -/
def dbZeroLimit : DB :=
  { dbEmpty with
    coupons := [couponZeroLimit],
    usages := [{ coupon := 12, user := 1, times_used := 0 }] }

/-- An active 200-percent coupon with no cap. -/
def couponBig : Coupon :=
  { id := 13, code := "BIG", discount_percent := 200, max_discount_amount := none,
    min_order_amount := 0, usage_limit_per_user := 1, total_user_limit := none,
    active := true, start_date := 0, end_date := 10 }

/-- Database for the negative-total scenario: a variant-less cart line worth
100 backed by an inventory row, and the 200-percent coupon. -/
def dbBig : DB :=
  { dbEmpty with
    products := [{ id := 3, store := 1, price := 100 }],
    inventory := [{ store := 1, product := 3, variation := none, quantity := 5 }],
    cart := [{ user := 1, product := 3, variation := none, quantity := 1 }],
    coupons := [couponBig] }

/-- An active coupon whose date window [0, 10] has passed at now = 20. -/
def couponExp : Coupon :=
  { id := 14, code := "EXP", discount_percent := 10, max_discount_amount := none,
    min_order_amount := 0, usage_limit_per_user := 1, total_user_limit := none,
    active := true, start_date := 0, end_date := 10 }

/-- Database holding only the expired-but-active coupon. -/
def dbExp : DB := { dbEmpty with coupons := [couponExp] }

/-- A confirmed order (id 5) of user 1 over 3 units of variant 1, with the
post-confirmation stock levels: variant counter 2, inventory row 2. -/
def dbConfirmed : DB :=
  { dbEmpty with
    products := [prod1],
    variants := [{ var1 with quantity := 2 }],
    inventory := [{ invRow1 with quantity := 2 }],
    orders := [{ id := 5, user := 1, coupon := none, subtotal := 300, discount_amount := 0,
                 total_amount := 300, status := .confirmed, reordered_from := none }],
    orderItems := [{ order := 5, product := 1, variation := some 1, quantity := 3, price := 100 }] }

/-- A coupon whose minimum order amount 10000 exceeds the cart below. -/
def couponMin : Coupon :=
  { id := 15, code := "MIN", discount_percent := 10, max_discount_amount := none,
    min_order_amount := 10000, usage_limit_per_user := 1, total_user_limit := none,
    active := true, start_date := 0, end_date := 10 }

/-- Database for the preview-failure scenario: cart worth 300, the
high-minimum coupon, and no usage rows at all. -/
def dbMin : DB :=
  { dbEmpty with
    products := [prod1],
    cart := [{ user := 1, product := 1, variation := none, quantity := 3 }],
    coupons := [couponMin] }

end ECom
/-! Helper lemmas about the coupon engine. -/

namespace ECom


/-- The inventory quantity the row under a key currently holds, 0 when no
row exists. -/
def invQty (db : DB) (k : InvKey) : Nat :=
  match db.findInventory k with
  | some r => r.quantity
  | none => 0

/-- The quantity counter of a ProductVariant row, 0 when no row exists. -/
def variantQty (db : DB) (vid : Nat) : Nat :=
  match db.findVariant vid with
  | some v => v.quantity
  | none => 0

/-- The state after placing the order of dbDouble and then confirming it. -/
def dbAfterConfirm : DB :=
  (update_order_status (place_order dbDouble 1 none 0 100).2 100 .confirmed).2

/-- An active coupon with usage_limit_per_user = 1. -/
def couponOne : Coupon :=
  { id := 16, code := "ONE", discount_percent := 10, max_discount_amount := none,
    min_order_amount := 0, usage_limit_per_user := 1, total_user_limit := none,
    active := true, start_date := 0, end_date := 10 }

/-- Database where user 1 has already used couponOne once. -/
def dbUsed : DB :=
  { dbEmpty with
    coupons := [couponOne],
    usages := [{ coupon := 16, user := 1, times_used := 1 }] }

/-- Database with a confirmed 3-unit order and a 5-unit inventory row, fit
for a successful re-order. -/
def dbReorder : DB := { dbConfirmed with inventory := [invRow1] }

/-- Like dbConfirmed but the stored order is still pending. -/
def dbPending : DB :=
  { dbConfirmed with
    orders := [{ id := 5, user := 1, coupon := none, subtotal := 300,
                 discount_amount := 0, total_amount := 300, status := .pending,
                 reordered_from := none }] }


/-- The savepoint wrapper restores the entry state on every validation error. -/
theorem validate_err_frame {db : DB} {code : String} {u : Nat} {s : ℚ} {now : Int}
    {e : CouponErr} {db1 : DB}
    (h : validate_and_calculate_coupon db code u s now = (.error e, db1)) : db1 = db := by
  unfold validate_and_calculate_coupon at h
  rcases hb : validateBody db code u s now with ⟨r, db2⟩
  rw [hb] at h
  cases r with
  | ok r => simp at h
  | error e2 => simp at h; exact h.2.symm

/-- Inversion of a successful usage step: the per-user limit was not hit,
the discount is the computed one, and the only write is the get_or_create. -/
theorem usageStep_ok_inv {db : DB} {c : Coupon} {u : Nat} {s : ℚ} {d : ℚ}
    {c2 : Coupon} {db2 : DB}
    (h : validateUsageStep db c u s = (.ok (d, c2), db2)) :
    c2 = c ∧ d = couponDiscount c s ∧ db2 = db.ensureUsage c.id u ∧
    (0 < c.usage_limit_per_user → db.usageTimes c.id u < c.usage_limit_per_user) := by
  simp only [validateUsageStep] at h
  split at h
  · simp at h
  · next hlim =>
    simp only [Except.ok.injEq, Prod.mk.injEq] at h
    obtain ⟨⟨hd, hc⟩, hdb⟩ := h
    refine ⟨hc.symm, hd.symm, hdb.symm, ?_⟩
    intro hpos
    rcases Nat.lt_or_ge (db.usageTimes c.id u) c.usage_limit_per_user with hlt | hge
    · exact hlt
    · exact absurd ⟨hpos, hge⟩ hlim

/-- Inversion of a successful coupon validation: the coupon was found
active, the date and minimum checks passed, the per-user limit was not hit,
the discount is the computed one, and the only write is the get_or_create
of the usage row. -/
theorem validate_ok_inv {db : DB} {code : String} {u : Nat} {s : ℚ} {now : Int}
    {d : ℚ} {c : Coupon} {db1 : DB}
    (h : validate_and_calculate_coupon db code u s now = (.ok (d, c), db1)) :
    db.findActiveCoupon code = some c ∧
    c.is_within_date now = true ∧
    ¬ s < c.min_order_amount ∧
    d = couponDiscount c s ∧
    db1 = db.ensureUsage c.id u ∧
    (0 < c.usage_limit_per_user → db.usageTimes c.id u < c.usage_limit_per_user) := by
  unfold validate_and_calculate_coupon at h
  rcases hb : validateBody db code u s now with ⟨r, db2⟩
  rw [hb] at h
  cases r with
  | error e => simp at h
  | ok r =>
    simp only [Except.ok.injEq, Prod.mk.injEq] at h
    obtain ⟨hr, hdb⟩ := h
    subst hr hdb
    cases hfind : db.findActiveCoupon code with
    | none => simp [validateBody, hfind] at hb
    | some c0 =>
      simp only [validateBody, hfind] at hb
      split at hb
      · simp at hb
      · next hdate =>
        split at hb
        · simp at hb
        · next hmin =>
          have hstep : validateUsageStep db c0 u s = (.ok (d, c), db2) := by
            split at hb
            · next lim htl =>
              split at hb
              · simp at hb
              · exact hb
            · exact hb
          obtain ⟨hc, hd, hdb2, hlim⟩ := usageStep_ok_inv hstep
          subst hc
          exact ⟨rfl, by simpa using hdate, hmin, hd, hdb2, hlim⟩

/-- The get_or_create of a usage row touches no table but usages. -/
theorem ensureUsage_fields (db : DB) (cid u : Nat) :
    (db.ensureUsage cid u).products = db.products ∧
    (db.ensureUsage cid u).variants = db.variants ∧
    (db.ensureUsage cid u).inventory = db.inventory ∧
    (db.ensureUsage cid u).cart = db.cart ∧
    (db.ensureUsage cid u).coupons = db.coupons ∧
    (db.ensureUsage cid u).orders = db.orders ∧
    (db.ensureUsage cid u).orderItems = db.orderItems ∧
    (db.ensureUsage cid u).tracking = db.tracking := by
  unfold DB.ensureUsage
  split <;> simp

/-- The get_or_create of a usage row changes no times_used figure, for any
pair: an existing row is untouched, a fresh row carries 0, the value an
absent row already denoted. -/
theorem ensureUsage_usageTimes (db : DB) (cid u cid2 u2 : Nat) :
    (db.ensureUsage cid u).usageTimes cid2 u2 = db.usageTimes cid2 u2 := by
  unfold DB.ensureUsage DB.usageTimes
  cases hf : db.usages.find? (fun x => x.coupon == cid && x.user == u) with
  | some x => rfl
  | none =>
    simp only [List.find?_append]
    cases hf2 : db.usages.find? (fun x => x.coupon == cid2 && x.user == u2) with
    | some y => simp
    | none =>
      simp only [Option.none_or]
      cases hm : List.find? (fun x => x.coupon == cid2 && x.user == u2)
          [(⟨cid, u, 0⟩ : CouponUsage)] with
      | none => rfl
      | some z =>
        have hz := List.find?_some hm
        have hzm := List.mem_of_find?_eq_some hm
        simp at hzm
        subst hzm
        rfl

/-- After get_or_create, a row for the pair is present and findable, and
its times_used is the figure usageTimes reported before. -/
theorem ensureUsage_find (db : DB) (cid u : Nat) :
    ∃ x, (db.ensureUsage cid u).usages.find? (fun y => y.coupon == cid && y.user == u) = some x ∧
      x.coupon = cid ∧ x.user = u ∧ x.times_used = db.usageTimes cid u := by
  unfold DB.ensureUsage DB.usageTimes
  cases hf : db.usages.find? (fun x => x.coupon == cid && x.user == u) with
  | some x =>
    refine ⟨x, hf, ?_, ?_, rfl⟩
    · have := List.find?_some hf
      simp at this
      exact this.1
    · have := List.find?_some hf
      simp at this
      exact this.2
  | none =>
    refine ⟨⟨cid, u, 0⟩, ?_, rfl, rfl, rfl⟩
    simp only [List.find?_append, hf, Option.none_or]
    simp [List.find?]

/-- Incrementing the usage counter raises the pair's times_used by exactly
one. -/
theorem incrementUsage_usageTimes (db : DB) (cid u : Nat) :
    (db.incrementUsage cid u).usageTimes cid u = db.usageTimes cid u + 1 := by
  obtain ⟨x, hfind, hc, hu, ht⟩ := ensureUsage_find db cid u
  unfold DB.incrementUsage DB.usageTimes
  simp only [List.find?_map]
  have hpred : (fun (y : CouponUsage) => y.coupon == cid && y.user == u) ∘
      (fun (x : CouponUsage) => if x.coupon == cid && x.user == u then
        { x with times_used := x.times_used + 1 } else x) =
      (fun (y : CouponUsage) => y.coupon == cid && y.user == u) := by
    funext y
    by_cases h1 : y.coupon = cid
    · by_cases h2 : y.user = u
      · simp [h1, h2]
      · simp [h1, h2]
    · simp [h1]
  rw [hpred, hfind]
  simp only [Option.map_some']
  rw [if_pos (by simp [hc, hu])]
  rw [ht]
  rfl

/-- Incrementing the usage counter touches no table but usages. -/
theorem incrementUsage_fields (db : DB) (cid u : Nat) :
    (db.incrementUsage cid u).products = db.products ∧
    (db.incrementUsage cid u).variants = db.variants ∧
    (db.incrementUsage cid u).inventory = db.inventory ∧
    (db.incrementUsage cid u).cart = db.cart ∧
    (db.incrementUsage cid u).coupons = db.coupons ∧
    (db.incrementUsage cid u).orders = db.orders ∧
    (db.incrementUsage cid u).orderItems = db.orderItems ∧
    (db.incrementUsage cid u).tracking = db.tracking := by
  unfold DB.incrementUsage
  obtain ⟨hp, hv, hi, hca, hco, ho, hoi, htr⟩ := ensureUsage_fields db cid u
  simp_all

/-- Validation (success or failure) changes no times_used figure: errors
roll back wholly, success only get_or_creates. -/
theorem validate_usageTimes (db : DB) (code : String) (u : Nat) (s : ℚ) (now : Int)
    (cid u2 : Nat) :
    (validate_and_calculate_coupon db code u s now).2.usageTimes cid u2 =
      db.usageTimes cid u2 := by
  rcases hv : validate_and_calculate_coupon db code u s now with ⟨r, db1⟩
  cases r with
  | error e => rw [validate_err_frame hv]
  | ok r =>
    rcases r with ⟨d, c⟩
    obtain ⟨-, -, -, -, hdb1, -⟩ := validate_ok_inv hv
    rw [hdb1]
    exact ensureUsage_usageTimes db c.id u cid u2

/-- The coupon step of Place Order returns the entry state on error. -/
theorem couponStep_err_frame {db : DB} {u : Nat} {code : Option String} {s : ℚ}
    {now : Int} {e : CouponErr} {db1 : DB}
    (h : couponStep db u code s now = (.error e, db1)) : db1 = db := by
  cases code with
  | none => simp [couponStep] at h
  | some cc =>
    simp only [couponStep] at h
    rcases hv : validate_and_calculate_coupon db cc u s now with ⟨r, db2⟩
    rw [hv] at h
    cases r with
    | ok r => rcases r with ⟨d, c⟩; simp at h
    | error e2 =>
      simp only [Except.error.injEq, Prod.mk.injEq] at h
      rw [← h.2]
      exact validate_err_frame hv

/-- Inversion of a successful coupon step: either no code was supplied and
nothing changes, or validation succeeded on the given code. -/
theorem couponStep_ok_inv {db : DB} {u : Nat} {code : Option String} {s : ℚ}
    {now : Int} {d : ℚ} {copt : Option Coupon} {db1 : DB}
    (h : couponStep db u code s now = (.ok (d, copt), db1)) :
    (code = none ∧ d = 0 ∧ copt = none ∧ db1 = db) ∨
    (∃ cc c, code = some cc ∧ copt = some c ∧
      validate_and_calculate_coupon db cc u s now = (.ok (d, c), db1)) := by
  cases code with
  | none =>
    left
    simp only [couponStep, Except.ok.injEq, Prod.mk.injEq] at h
    exact ⟨rfl, h.1.1.symm, h.1.2.symm, h.2.symm⟩
  | some cc =>
    right
    simp only [couponStep] at h
    rcases hv : validate_and_calculate_coupon db cc u s now with ⟨r, db2⟩
    rw [hv] at h
    cases r with
    | error e => simp at h
    | ok r =>
      rcases r with ⟨d2, c⟩
      simp only [Except.ok.injEq, Prod.mk.injEq] at h
      refine ⟨cc, c, rfl, h.1.2.symm, ?_⟩
      rw [← h.1.1, ← h.2]
      exact hv

/-- The check loop never reports a missing inventory record: every branch
of availableQuantity yields a figure, so the None test is dead. -/
theorem checkLoop_no_missing (db : DB) (items : List CartItem) (s : ℚ)
    (acc : List (InvKey × Nat)) (pid : Nat) :
    checkLoop db items s acc ≠ .error (.missingInventoryRecord pid) := by
  induction items generalizing s acc with
  | nil => simp [checkLoop]
  | cons item rest ih =>
    simp only [checkLoop]
    cases hr : resolveLine db item with
    | none => simp [hr]
    | some pv =>
      rcases pv with ⟨p, v⟩
      simp only [hr]
      cases hq : availableQuantity db (lineKey p item) v with
      | none =>
        exfalso
        unfold availableQuantity at hq
        cases h1 : db.findInventory (lineKey p item) with
        | some r => rw [h1] at hq; simp at hq
        | none =>
          rw [h1] at hq
          cases v with
          | some w => simp at hq
          | none => simp at hq
      | some q =>
        simp only [hq]
        by_cases hlt : q < item.quantity
        · simp [hlt]
        · simp only [hlt, if_false]
          exact ih _ _

/-- A successful check loop appends exactly one (key, quantity) pair per
cart line, in order. -/
theorem checkLoop_upd (db : DB) (items : List CartItem) (s : ℚ)
    (acc : List (InvKey × Nat)) (t : ℚ) (upd : List (InvKey × Nat))
    (h : checkLoop db items s acc = .ok (t, upd)) :
    upd = acc.reverse ++ items.map (fun i => (itemKey db i, i.quantity)) := by
  induction items generalizing s acc with
  | nil =>
    simp only [checkLoop, Except.ok.injEq, Prod.mk.injEq] at h
    simp [← h.2]
  | cons item rest ih =>
    simp only [checkLoop] at h
    cases hr : resolveLine db item with
    | none => simp [hr] at h
    | some pv =>
      rcases pv with ⟨p, v⟩
      simp only [hr] at h
      cases hq : availableQuantity db (lineKey p item) v with
      | none => simp [hq] at h
      | some q =>
        simp only [hq] at h
        by_cases hlt : q < item.quantity
        · rw [if_pos hlt] at h; simp at h
        · rw [if_neg hlt] at h
          have := ih _ _ h
          rw [this]
          simp only [List.map_cons, List.reverse_cons, List.append_assoc,
            List.singleton_append, List.cons_append, List.nil_append]
          have hkey : itemKey db item = lineKey p item := by
            unfold itemKey
            rw [hr]
          rw [hkey]

/-- A successful check loop verified every line with an inventory row
against that row: the requested quantity fits the row quantity. -/
theorem checkLoop_stock (db : DB) (items : List CartItem) (s : ℚ)
    (acc : List (InvKey × Nat)) (t : ℚ) (upd : List (InvKey × Nat))
    (h : checkLoop db items s acc = .ok (t, upd)) :
    ∀ i ∈ items, ∀ r, db.findInventory (itemKey db i) = some r →
      i.quantity ≤ r.quantity := by
  induction items generalizing s acc with
  | nil => simp
  | cons item rest ih =>
    simp only [checkLoop] at h
    cases hr : resolveLine db item with
    | none => simp [hr] at h
    | some pv =>
      rcases pv with ⟨p, v⟩
      simp only [hr] at h
      cases hq : availableQuantity db (lineKey p item) v with
      | none => simp [hq] at h
      | some q =>
        simp only [hq] at h
        by_cases hlt : q < item.quantity
        · rw [if_pos hlt] at h; simp at h
        · rw [if_neg hlt] at h
          intro i hi r hfr
          rcases List.mem_cons.mp hi with hhead | htail
          · subst hhead
            have hkey : itemKey db i = lineKey p i := by
              unfold itemKey
              rw [hr]
            rw [hkey] at hfr
            unfold availableQuantity at hq
            rw [hfr] at hq
            simp only [Option.some.injEq] at hq
            subst hq
            exact Nat.le_of_not_lt hlt
          · exact ih _ _ h i htail r hfr

/-- A row matches at most one key: its own (store, product, variation). -/
theorem invMatches_unique {k1 k2 : InvKey} {r : InventoryRec}
    (h1 : invMatches k1 r = true) (h2 : invMatches k2 r = true) : k1 = k2 := by
  unfold invMatches at h1 h2
  simp only [Bool.and_eq_true, beq_iff_eq] at h1 h2
  cases k1
  cases k2
  simp_all

/-- Updating a row's quantity keeps its key matches as they were. -/
theorem invMatches_set_quantity (k : InvKey) (r : InventoryRec) (n : Nat) :
    invMatches k { r with quantity := n } = invMatches k r := by
  unfold invMatches
  rfl

/-- A row no update addresses survives the update fold unchanged. -/
theorem applyUpd_frame (upd : List (InvKey × Nat)) (inv : List InventoryRec)
    (r : InventoryRec) (hr : r ∈ inv)
    (hnone : ∀ kq ∈ upd, invMatches (Prod.fst kq) r = false) :
    r ∈ applyInventoryUpdates inv upd := by
  induction upd generalizing inv with
  | nil => simpa [applyInventoryUpdates] using hr
  | cons kq rest ih =>
    rcases kq with ⟨k, q⟩
    simp only [applyInventoryUpdates]
    have hk : invMatches k r = false := hnone (k, q) (List.mem_cons_self _ _)
    have hrmap : ∀ n, (fun x =>
        if invMatches k x = true then { x with quantity := x.quantity - n } else x) r = r := by
      intro n
      simp [hk]
    have hrest2 : ∀ kq2 ∈ rest, invMatches (Prod.fst kq2) r = false := by
      intro kq2 hkq2
      exact hnone kq2 (List.mem_cons_of_mem _ hkq2)
    by_cases hex : inv.any (invMatches k)
    · rw [if_pos hex]
      refine ih _ ?_ hrest2
      rw [← hrmap q]
      exact List.mem_map_of_mem _ hr
    · rw [if_neg hex]
      exact ih _ hr hrest2

/-- A row addressed by exactly one update of the fold ends decremented by
that update's quantity. -/
theorem applyUpd_hit (upd : List (InvKey × Nat)) (inv : List InventoryRec)
    (k : InvKey) (q : Nat) (r : InventoryRec)
    (hmem : (k, q) ∈ upd) (hr : r ∈ inv) (hk : invMatches k r = true)
    (hdist : upd.Pairwise (fun a b => Prod.fst a ≠ Prod.fst b)) :
    { r with quantity := r.quantity - q } ∈ applyInventoryUpdates inv upd := by
  induction upd generalizing inv with
  | nil => simp at hmem
  | cons kq rest ih =>
    rcases kq with ⟨k2, q2⟩
    rcases List.pairwise_cons.mp hdist with ⟨hhead, hrest⟩
    rcases List.mem_cons.mp hmem with hfst | htail
    · have hk2 : k2 = k := by
        have := congrArg Prod.fst hfst
        simpa using this.symm
      have hq2 : q2 = q := by
        have := congrArg Prod.snd hfst
        simpa using this.symm
      simp only [applyInventoryUpdates, hk2, hq2]
      have hex : inv.any (invMatches k) = true :=
        List.any_eq_true.mpr ⟨r, hr, hk⟩
      rw [if_pos hex]
      apply applyUpd_frame
      · have heq : (fun x =>
            if invMatches k x = true then { x with quantity := x.quantity - q } else x) r
            = { r with quantity := r.quantity - q } := by
          simp [hk]
        rw [← heq]
        exact List.mem_map_of_mem _ hr
      · intro kq2 hkq2
        have hne : k ≠ kq2.1 := by
          have := hhead kq2 hkq2
          rw [hk2] at this
          simpa using this
        by_cases hm : invMatches kq2.1 { r with quantity := r.quantity - q } = true
        · exfalso
          rw [invMatches_set_quantity] at hm
          exact hne (invMatches_unique hk hm)
        · simpa using hm
    · simp only [applyInventoryUpdates]
      have hne : k2 ≠ k := by
        have := hhead (k, q) htail
        simpa using this
      have hkr : invMatches k2 r = false := by
        by_cases hm : invMatches k2 r = true
        · exact absurd (invMatches_unique hm hk) hne
        · simpa using hm
      by_cases hex : inv.any (invMatches k2)
      · rw [if_pos hex]
        refine ih _ htail ?_ hrest
        have heq : (fun x =>
            if invMatches k2 x = true then { x with quantity := x.quantity - q2 } else x) r
            = r := by
          simp [hkr]
        rw [← heq]
        exact List.mem_map_of_mem _ hr
      · rw [if_neg hex]
        exact ih _ htail hr hrest

/-- Field-by-field description of the write phase of a successful Place
Order: where each table ends up. -/
theorem finalize_fields (db : DB) (u oid : Nat) (items : List CartItem)
    (subtotal discount : ℚ) (coupon : Option Coupon) (upd : List (InvKey × Nat)) :
    (finalize db u oid items subtotal discount coupon upd).inventory =
      applyInventoryUpdates db.inventory upd ∧
    (finalize db u oid items subtotal discount coupon upd).cart =
      db.cart.filter (fun ci => ci.user != u) ∧
    (finalize db u oid items subtotal discount coupon upd).variants = db.variants ∧
    (finalize db u oid items subtotal discount coupon upd).orders =
      db.orders ++ [mkOrder oid u coupon subtotal discount] := by
  unfold finalize
  cases coupon with
  | none => simp
  | some c =>
    obtain ⟨hp, hv, hi, hca, hco, ho, hoi, htr⟩ :=
      incrementUsage_fields
        { db with
          orders := db.orders ++ [mkOrder oid u (some c) subtotal discount],
          orderItems := db.orderItems ++
            mkOrderItems { db with
              orders := db.orders ++ [mkOrder oid u (some c) subtotal discount] } oid items,
          inventory := applyInventoryUpdates db.inventory upd }
        c.id u
    simp_all

/-- A failing Place Order hands back exactly the state it started from:
the check loop writes nothing, and a coupon failure is rolled back to the
savepoint before the 400 response commits. -/
theorem place_order_err_frame {db : DB} {u : Nat} {code : Option String}
    {now : Int} {oid : Nat} {e : PlaceErr} {db1 : DB}
    (h : place_order db u code now oid = (.error e, db1)) : db1 = db := by
  unfold place_order at h
  by_cases hemp : (db.cart.filter (fun ci => ci.user == u)).isEmpty
  · rw [if_pos hemp] at h
    simp only [Prod.mk.injEq] at h
    exact h.2.symm
  · rw [if_neg hemp] at h
    cases hc : checkLoop db (db.cart.filter (fun ci => ci.user == u)) 0 [] with
    | error e2 =>
      simp only [hc, Prod.mk.injEq] at h
      exact h.2.symm
    | ok sp =>
      rcases sp with ⟨s, upd⟩
      simp only [hc] at h
      rcases hcs : couponStep db u code s now with ⟨r, db2⟩
      cases r with
      | ok r =>
        rcases r with ⟨d, copt⟩
        simp only [hcs] at h
        simp at h
      | error e2 =>
        simp only [hcs, Prod.mk.injEq] at h
        rw [← h.2]
        exact couponStep_err_frame hcs

/-- Inversion of a successful Place Order: the cart was nonempty, the
check loop and the coupon step succeeded, the answer is the created order,
and the final state is the finalize write. -/
theorem place_order_ok_inv {db : DB} {u : Nat} {code : Option String}
    {now : Int} {oid : Nat} {o : Order} {db1 : DB}
    (h : place_order db u code now oid = (.ok o, db1)) :
    ∃ s upd d copt db2,
      (db.cart.filter (fun ci => ci.user == u)).isEmpty = false ∧
      checkLoop db (db.cart.filter (fun ci => ci.user == u)) 0 [] = .ok (s, upd) ∧
      couponStep db u code s now = (.ok (d, copt), db2) ∧
      o = mkOrder oid u copt s d ∧
      db1 = finalize db2 u oid (db.cart.filter (fun ci => ci.user == u)) s d copt upd := by
  unfold place_order at h
  by_cases hemp : (db.cart.filter (fun ci => ci.user == u)).isEmpty
  · rw [if_pos hemp] at h
    simp at h
  · rw [if_neg hemp] at h
    cases hc : checkLoop db (db.cart.filter (fun ci => ci.user == u)) 0 [] with
    | error e2 => simp [hc] at h
    | ok sp =>
      rcases sp with ⟨s, upd⟩
      simp only [hc] at h
      rcases hcs : couponStep db u code s now with ⟨r, db2⟩
      cases r with
      | error e2 => simp [hcs] at h
      | ok r =>
        rcases r with ⟨d, copt⟩
        simp only [hcs, Prod.mk.injEq, Except.ok.injEq] at h
        refine ⟨s, upd, d, copt, db2, by simpa using hemp, rfl, hcs, h.1.symm, h.2.symm⟩

/-- A successful coupon step leaves every table but usages untouched. -/
theorem couponStep_ok_fields {db : DB} {u : Nat} {code : Option String} {s : ℚ}
    {now : Int} {d : ℚ} {copt : Option Coupon} {db2 : DB}
    (h : couponStep db u code s now = (.ok (d, copt), db2)) :
    db2.products = db.products ∧ db2.variants = db.variants ∧
    db2.inventory = db.inventory ∧ db2.cart = db.cart ∧
    db2.coupons = db.coupons ∧ db2.orders = db.orders ∧
    db2.orderItems = db.orderItems ∧ db2.tracking = db.tracking := by
  rcases couponStep_ok_inv h with ⟨-, -, -, hdb⟩ | ⟨cc, c, -, -, hv⟩
  · subst hdb
    exact ⟨rfl, rfl, rfl, rfl, rfl, rfl, rfl, rfl⟩
  · obtain ⟨-, -, -, -, hdb2, -⟩ := validate_ok_inv hv
    subst hdb2
    exact ensureUsage_fields db c.id u

/-- The confirm-time deduction loop mutates only ProductVariant rows. -/
theorem deductItems_fields (items : List OrderItem) (db : DB) :
    (deductItems db items).2.inventory = db.inventory ∧
    (deductItems db items).2.orders = db.orders ∧
    (deductItems db items).2.usages = db.usages ∧
    (deductItems db items).2.orderItems = db.orderItems := by
  induction items generalizing db with
  | nil => simp [deductItems]
  | cons it rest ih =>
    simp only [deductItems]
    cases it.variation with
    | none => simp
    | some vid =>
      cases hv : db.findVariant vid with
      | none => simp [hv]
      | some v =>
        simp only [hv]
        by_cases hlt : v.quantity < it.quantity
        · simp [hlt]
        · simp only [hlt, if_false]
          exact ih _

/-- The cancel-time restore loop mutates only ProductVariant rows. -/
theorem restoreItems_fields (items : List OrderItem) (db : DB) :
    (restoreItems db items).2.inventory = db.inventory ∧
    (restoreItems db items).2.orders = db.orders ∧
    (restoreItems db items).2.usages = db.usages ∧
    (restoreItems db items).2.orderItems = db.orderItems := by
  induction items generalizing db with
  | nil => simp [restoreItems]
  | cons it rest ih =>
    simp only [restoreItems]
    cases it.variation with
    | none => simp
    | some vid => exact ih _

/-- A status save and its stock signals never touch inventory rows. -/
theorem update_order_status_inventory (db : DB) (oid : Nat) (st : OrderStatus) :
    (update_order_status db oid st).2.inventory = db.inventory := by
  unfold update_order_status
  cases hf : db.orders.find? (fun o => o.id == oid) with
  | none => rfl
  | some o =>
    simp only []
    split
    · exact (deductItems_fields _ _).1
    · split
      · exact (restoreItems_fields _ _).1
      · rfl

/-- Place Order never touches ProductVariant rows: on failure the state is
handed back whole, on success the finalize phase writes orders, items,
inventory, usage, tracking and cart only. -/
theorem place_order_variants (db : DB) (u : Nat) (code : Option String)
    (now : Int) (oid : Nat) :
    (place_order db u code now oid).2.variants = db.variants := by
  rcases hp : place_order db u code now oid with ⟨r, db1⟩
  cases r with
  | error e => rw [place_order_err_frame hp]
  | ok o =>
    obtain ⟨s, upd, d, copt, db2, -, -, hcs, -, hdb1⟩ := place_order_ok_inv hp
    rw [hdb1]
    rw [(finalize_fields db2 u oid _ s d copt upd).2.2.1]
    exact (couponStep_ok_fields hcs).2.1

/-! Claim theorems. -/

/-- C1: Place Order is atomic — every failing execution (empty cart,
insufficient stock, missing inventory, invalid coupon) hands back a state
equal to the initial one: no Order row, no OrderItem row, no inventory
change and no CouponUsage increment persists. -/
theorem place_order_atomic_rollback (db : DB) (u : Nat) (code : Option String)
    (now : Int) (oid : Nat) (e : PlaceErr) (db1 : DB)
    (h : place_order db u code now oid = (.error e, db1)) : db1 = db :=
  place_order_err_frame h

/-- C1 witness: a concrete failing Place Order (empty cart) leaves the
database untouched. -/
theorem place_order_atomic_rollback_witness :
    (place_order dbEmpty 1 none 0 1).2 = dbEmpty :=
  place_order_atomic_rollback dbEmpty 1 none 0 1 .emptyCart _
    (by simp [place_order, dbEmpty])

/-- C2 counterexample: placing an order for 3 units and confirming it
removes 6 units from the line's stock — 3 from the Inventory row at
placement and another 3 from the ProductVariant counter at confirmation —
so the same line's quantity is deducted from stock twice. -/
theorem double_deduction_counterexample :
    invQty dbDouble ⟨1, 1, some 1⟩ + variantQty dbDouble 1 = 10 ∧
    invQty dbAfterConfirm ⟨1, 1, some 1⟩ + variantQty dbAfterConfirm 1 = 4 ∧
    invQty dbDouble ⟨1, 1, some 1⟩ + variantQty dbDouble 1 -
      (invQty dbAfterConfirm ⟨1, 1, some 1⟩ + variantQty dbAfterConfirm 1) =
      2 * cartLine1.quantity := by
  refine ⟨by norm_num [invQty, variantQty, DB.findInventory, DB.findVariant, dbDouble,
    invRow1, var1, invMatches, List.find?], ?_, ?_⟩ <;>
  · norm_num [invQty, variantQty, dbAfterConfirm, update_order_status, place_order,
      checkLoop, resolveLine, couponStep, finalize, mkOrder, mkOrderItems,
      applyInventoryUpdates, deductItems, restoreItems, unitPrice, lineKey,
      availableQuantity, DB.findInventory, DB.findVariant, DB.findProduct,
      invMatches, dbDouble, invRow1, var1, prod1, cartLine1, List.find?, List.filter]

/-- C2 (amended): there are two deduction points hitting two different
counters — Place Order decrements only Inventory rows and never
ProductVariant counters, the confirm signal decrements only ProductVariant
counters and never Inventory rows, and re-saving an already confirmed order
as confirmed deducts nothing — so no single counter is deducted twice for
one order, but the line's quantity leaves the combined stock twice. -/
theorem stock_deduction_points_disjoint :
    (∀ db u code now oid, (place_order db u code now oid).2.variants = db.variants) ∧
    (∀ db oid st, (update_order_status db oid st).2.inventory = db.inventory) ∧
    (∀ (db : DB) (oid : Nat) (o : Order),
      db.orders.find? (fun x => x.id == oid) = some o → o.status = .confirmed →
      (update_order_status db oid .confirmed).2.variants = db.variants) := by
  refine ⟨place_order_variants, update_order_status_inventory, ?_⟩
  intro db oid o hf hst
  unfold update_order_status
  rw [hf]
  simp only [hst]
  rw [if_neg (by simp), if_neg (by simp)]

/-- C2 witness: the disjointness facts instantiated on the concrete
scenario databases. -/
theorem stock_deduction_points_disjoint_witness :
    (place_order dbDouble 1 none 0 100).2.variants = dbDouble.variants ∧
    (update_order_status dbConfirmed 5 .cancelled).2.inventory = dbConfirmed.inventory ∧
    (update_order_status dbConfirmed 5 .confirmed).2.variants = dbConfirmed.variants := by
  refine ⟨stock_deduction_points_disjoint.1 dbDouble 1 none 0 100,
    stock_deduction_points_disjoint.2.1 dbConfirmed 5 .cancelled,
    stock_deduction_points_disjoint.2.2 dbConfirmed 5
      { id := 5, user := 1, coupon := none, subtotal := 300, discount_amount := 0,
        total_amount := 300, status := .confirmed, reordered_from := none } ?_ rfl⟩
  simp [dbConfirmed, List.find?, dbEmpty]

/-- Bounds on the computed discount when the coupon data is well-behaved:
a percent in [0, 100], a non-negative cap, a non-negative subtotal. -/
theorem couponDiscount_bounds (c : Coupon) (s : ℚ) (hs : 0 ≤ s)
    (hp : 0 ≤ c.discount_percent) (hp2 : c.discount_percent ≤ 100)
    (hm : ∀ m, c.max_discount_amount = some m → 0 ≤ m) :
    0 ≤ couponDiscount c s ∧ couponDiscount c s ≤ s ∧
    (∀ m, c.max_discount_amount = some m → m ≠ 0 → couponDiscount c s ≤ m) := by
  have h100 : (0 : ℚ) < 100 := by norm_num
  have hraw0 : 0 ≤ s * c.discount_percent / 100 :=
    div_nonneg (mul_nonneg hs hp) (le_of_lt h100)
  have hraws : s * c.discount_percent / 100 ≤ s := by
    rw [div_le_iff₀ h100]
    exact mul_le_mul_of_nonneg_left hp2 hs
  unfold couponDiscount
  cases hmax : c.max_discount_amount with
  | none =>
    simp only [optTruthy]
    rw [if_neg (by simp)]
    refine ⟨hraw0, hraws, ?_⟩
    intro m2 hm2
    simp at hm2
  | some m =>
    have hm0 : 0 ≤ m := hm m hmax
    by_cases hz : m = 0
    · subst hz
      simp only [optTruthy]
      rw [if_neg (by simp)]
      refine ⟨hraw0, hraws, ?_⟩
      intro m2 hm2 hne
      simp only [Option.some.injEq] at hm2
      exact absurd hm2.symm hne
    · simp only [optTruthy]
      rw [if_pos (by simp [hz]), Option.getD_some]
      refine ⟨le_min hraw0 hm0, le_trans (min_le_left _ _) hraws, ?_⟩
      intro m2 hm2 hne
      simp only [Option.some.injEq] at hm2
      subst hm2
      exact min_le_right _ _

/-- C3 counterexample: a percent coupon with discount_percent = -10 passes
validation on subtotal 1000 and yields discount -100, below zero — no zero
floor is applied, against the claimed bounds. -/
theorem negative_discount_counterexample :
    (validate_and_calculate_coupon dbNeg "NEG" 1 1000 5).1 = .ok (-100, couponNeg) ∧
    ((-100 : ℚ) < 0) := by
  constructor
  · norm_num [validate_and_calculate_coupon, validateBody, validateUsageStep,
      DB.findActiveCoupon, Coupon.is_within_date, DB.usageTimes, DB.ensureUsage,
      couponDiscount, optTruthy, dbNeg, couponNeg, dbEmpty, List.find?]
  · norm_num

/-- C3 (amended): a successful validation computes the discount as
subtotal * discount_percent / 100, capped at max_discount_amount exactly
when that field is set and nonzero; no zero floor exists, so the claimed
bounds 0 ≤ discount ≤ min(subtotal, cap) hold under the extra hypotheses
0 ≤ subtotal, 0 ≤ discount_percent ≤ 100 and a non-negative cap; the
SAVE10 scenario on subtotal 1000 yields discount 50 and total 950. -/
theorem coupon_discount_formula_and_bounds :
    (∀ (db : DB) (code : String) (u : Nat) (s : ℚ) (now : Int) (d : ℚ)
        (c : Coupon) (db1 : DB),
      validate_and_calculate_coupon db code u s now = (.ok (d, c), db1) →
      d = couponDiscount c s ∧
      (0 ≤ s → 0 ≤ c.discount_percent → c.discount_percent ≤ 100 →
        (∀ m, c.max_discount_amount = some m → 0 ≤ m) →
        0 ≤ d ∧ d ≤ s ∧
        (∀ m, c.max_discount_amount = some m → m ≠ 0 → d ≤ m))) ∧
    (cart_apply_coupon dbSave 7 "SAVE10" 5).1 = .ok (1000, 50, 950) := by
  constructor
  · intro db code u s now d c db1 h
    obtain ⟨-, -, -, hd, -, -⟩ := validate_ok_inv h
    subst hd
    refine ⟨rfl, ?_⟩
    intro hs hp hp2 hm
    exact couponDiscount_bounds c s hs hp hp2 hm
  · norm_num [cart_apply_coupon, cartSubtotal, resolveLine, DB.findProduct,
      DB.findVariant, unitPrice, validate_and_calculate_coupon, validateBody,
      DB.findActiveCoupon, Coupon.is_within_date, validateUsageStep, DB.usageTimes,
      DB.ensureUsage, couponDiscount, optTruthy, DB.distinctUsersUsed, dbSave,
      couponSave, prod1, cartLineSave, dbEmpty, List.find?, List.filter]

/-- C3 witness: the formula and bounds at the SAVE10 instance, hypotheses
discharged concretely. -/
theorem coupon_discount_formula_and_bounds_witness :
    ((50 : ℚ) = couponDiscount couponSave 1000 ∧
      (0 ≤ (1000 : ℚ) → 0 ≤ couponSave.discount_percent →
        couponSave.discount_percent ≤ 100 →
        (∀ m, couponSave.max_discount_amount = some m → 0 ≤ m) →
        0 ≤ (50 : ℚ) ∧ (50 : ℚ) ≤ 1000 ∧
        (∀ m, couponSave.max_discount_amount = some m → m ≠ 0 → (50 : ℚ) ≤ m))) := by
  have h := coupon_discount_formula_and_bounds.1 dbSave "SAVE10" 7 1000 5 50 couponSave
    (validate_and_calculate_coupon dbSave "SAVE10" 7 1000 5).2
    (by norm_num [validate_and_calculate_coupon, validateBody, validateUsageStep,
      DB.findActiveCoupon, Coupon.is_within_date, DB.usageTimes, DB.ensureUsage,
      couponDiscount, optTruthy, dbSave, couponSave, dbEmpty, List.find?])
  exact h

/-- The usages table incrementUsage produces depends only on the usages
table it starts from. -/
theorem incrementUsage_usages_congr {db db2 : DB} (h : db.usages = db2.usages)
    (cid u : Nat) :
    (db.incrementUsage cid u).usages = (db2.incrementUsage cid u).usages := by
  unfold DB.incrementUsage DB.ensureUsage
  rw [h]
  cases hf : db2.usages.find? (fun x => x.coupon == cid && x.user == u) <;> simp [h]

/-- A successful Place Order with a coupon raises that (coupon, user)
pair's times_used by exactly one during finalize. -/
theorem finalize_usageTimes_some (db : DB) (u oid : Nat) (items : List CartItem)
    (s d : ℚ) (c : Coupon) (upd : List (InvKey × Nat)) :
    (finalize db u oid items s d (some c) upd).usageTimes c.id u =
      db.usageTimes c.id u + 1 := by
  have hu : (finalize db u oid items s d (some c) upd).usages =
      (db.incrementUsage c.id u).usages := by
    unfold finalize
    simp only []
    refine incrementUsage_usages_congr ?_ c.id u
    rfl
  calc (finalize db u oid items s d (some c) upd).usageTimes c.id u
      = (db.incrementUsage c.id u).usageTimes c.id u := by
        unfold DB.usageTimes
        rw [hu]
    _ = db.usageTimes c.id u + 1 := incrementUsage_usageTimes db c.id u

/-- C4 counterexample: a coupon with usage_limit_per_user = 0 and an
existing (coupon, user) row with times_used = 0 ≥ 0 still validates — the
code treats the falsy limit 0 as no limit, so no PerUserLimitExceeded is
raised. -/
theorem zero_limit_counterexample :
    couponZeroLimit.usage_limit_per_user = 0 ∧
    dbZeroLimit.usageTimes 12 1 = 0 ∧
    (validate_and_calculate_coupon dbZeroLimit "ZERO" 1 1000 5).1 =
      .ok (100, couponZeroLimit) := by
  refine ⟨rfl, by norm_num [DB.usageTimes, dbZeroLimit, dbEmpty, List.find?], ?_⟩
  norm_num [validate_and_calculate_coupon, validateBody, validateUsageStep,
    DB.findActiveCoupon, Coupon.is_within_date, DB.usageTimes, DB.ensureUsage,
    couponDiscount, optTruthy, dbZeroLimit, couponZeroLimit, dbEmpty, List.find?]

/-- C4 (amended, for limits k ≥ 1): when the per-user counter has reached
the limit and the earlier checks pass, validation fails with
PerUserLimitExceeded and leaves the state unchanged; and every successful
Place Order that applies a coupon raises that user's times_used by exactly
one. -/
theorem per_user_limit_enforced :
    (∀ (db : DB) (code : String) (u : Nat) (s : ℚ) (now : Int) (c : Coupon),
      db.findActiveCoupon code = some c →
      c.is_within_date now = true →
      ¬ s < c.min_order_amount →
      (∀ lim, c.total_user_limit = some lim → db.distinctUsersUsed c.id < lim) →
      1 ≤ c.usage_limit_per_user →
      c.usage_limit_per_user ≤ db.usageTimes c.id u →
      validate_and_calculate_coupon db code u s now =
        (.error .perUserLimitExceeded, db)) ∧
    (∀ (db : DB) (u : Nat) (cc : String) (now : Int) (oid : Nat) (o : Order) (db1 : DB),
      place_order db u (some cc) now oid = (.ok o, db1) →
      ∃ c, db.findActiveCoupon cc = some c ∧
        db1.usageTimes c.id u = db.usageTimes c.id u + 1) := by
  constructor
  · intro db code u s now c hfind hdate hmin htotal hk ht
    have hstep : validateUsageStep db c u s =
        (.error .perUserLimitExceeded, db.ensureUsage c.id u) := by
      simp only [validateUsageStep]
      rw [if_pos ⟨by omega, ht⟩]
    have hbody : validateBody db code u s now =
        (.error .perUserLimitExceeded, db.ensureUsage c.id u) := by
      simp only [validateBody, hfind]
      rw [if_neg (by simp [hdate])]
      rw [if_neg hmin]
      split
      · next lim htl =>
        rw [if_neg (by have := htotal lim htl; omega)]
        exact hstep
      · exact hstep
    unfold validate_and_calculate_coupon
    rw [hbody]
  · intro db u cc now oid o db1 h
    obtain ⟨s, upd, d, copt, db2, -, -, hcs, -, hdb1⟩ := place_order_ok_inv h
    rcases couponStep_ok_inv hcs with ⟨hnone, -, -, -⟩ | ⟨cc2, c, hcc, hcopt, hv⟩
    · simp at hnone
    · obtain ⟨hfind, -, -, -, hdb2, -⟩ := validate_ok_inv hv
      have hcc2 : cc2 = cc := by
        injection hcc.symm
      subst hcc2
      refine ⟨c, hfind, ?_⟩
      rw [hcopt] at hdb1
      rw [hdb1, finalize_usageTimes_some db2 u oid _ s d c upd, hdb2,
        ensureUsage_usageTimes]

/-- C4 witness: the exhausted-limit failure on a concrete used-up coupon,
and the increment-by-one on a concrete successful coupon order. -/
theorem per_user_limit_enforced_witness :
    validate_and_calculate_coupon dbUsed "ONE" 1 1000 5 =
      (.error .perUserLimitExceeded, dbUsed) ∧
    (∃ c, dbBig.findActiveCoupon "BIG" = some c ∧
      (place_order dbBig 1 (some "BIG") 5 200).2.usageTimes c.id 1 =
        dbBig.usageTimes c.id 1 + 1) := by
  constructor
  · exact per_user_limit_enforced.1 dbUsed "ONE" 1 1000 5 couponOne
      (by norm_num [DB.findActiveCoupon, dbUsed, couponOne, dbEmpty, List.find?])
      (by norm_num [Coupon.is_within_date, couponOne])
      (by norm_num [couponOne])
      (by intro lim hl; simp [couponOne] at hl)
      (by norm_num [couponOne])
      (by norm_num [DB.usageTimes, dbUsed, couponOne, dbEmpty, List.find?])
  · exact per_user_limit_enforced.2 dbBig 1 "BIG" 5 200
      { id := 200, user := 1, coupon := some 13, subtotal := 100, discount_amount := 200,
        total_amount := -100, status := .pending, reordered_from := none }
      (place_order dbBig 1 (some "BIG") 5 200).2
      (by norm_num [place_order, checkLoop, resolveLine, couponStep, finalize, mkOrder,
        mkOrderItems, applyInventoryUpdates, unitPrice, lineKey, availableQuantity,
        DB.findInventory, DB.findVariant, DB.findProduct, invMatches,
        validate_and_calculate_coupon, validateBody, validateUsageStep,
        DB.findActiveCoupon, Coupon.is_within_date, DB.usageTimes, DB.ensureUsage,
        DB.incrementUsage, couponDiscount, optTruthy, dbBig, couponBig, dbEmpty,
        List.find?, List.filter])

/-- C5 counterexample: a cart line whose (store, product, variant) triple
has no inventory row does not make Place Order fail with
MissingInventoryRecord — the order succeeds, served from the variant's own
quantity counter as fallback stock. -/
theorem fallback_stock_counterexample :
    dbNoInv.findInventory ⟨1, 1, some 1⟩ = none ∧
    (place_order dbNoInv 1 none 0 100).1 =
      .ok { id := 100, user := 1, coupon := none, subtotal := 300,
            discount_amount := 0, total_amount := 300, status := .pending,
            reordered_from := none } := by
  constructor
  · norm_num [DB.findInventory, dbNoInv, List.find?]
  · norm_num [place_order, checkLoop, resolveLine, couponStep, finalize, mkOrder,
      mkOrderItems, applyInventoryUpdates, unitPrice, lineKey, availableQuantity,
      DB.findInventory, DB.findVariant, DB.findProduct, invMatches, dbNoInv,
      var1, prod1, cartLine1, List.find?, List.filter]

/-- C5 (amended): Place Order can never fail with MissingInventoryRecord —
when no inventory row exists the code falls back to the variant quantity
(or to the getattr default 0 for variant-less lines) as available stock,
so the missing-record branch is unreachable. -/
theorem no_missing_inventory_error (db : DB) (u : Nat) (code : Option String)
    (now : Int) (oid : Nat) (pid : Nat) :
    (place_order db u code now oid).1 ≠ .error (.missingInventoryRecord pid) := by
  intro h
  rcases hp : place_order db u code now oid with ⟨r, db1⟩
  rw [hp] at h
  simp only [] at h
  subst h
  unfold place_order at hp
  by_cases hemp : (db.cart.filter (fun ci => ci.user == u)).isEmpty
  · rw [if_pos hemp] at hp
    simp at hp
  · rw [if_neg hemp] at hp
    cases hc : checkLoop db (db.cart.filter (fun ci => ci.user == u)) 0 [] with
    | error e2 =>
      simp only [hc, Prod.mk.injEq] at hp
      obtain ⟨h1, -⟩ := hp
      simp only [Except.error.injEq] at h1
      exact checkLoop_no_missing db _ 0 [] pid (h1 ▸ hc)
    | ok sp =>
      rcases sp with ⟨s, upd⟩
      simp only [hc] at hp
      rcases hcs : couponStep db u code s now with ⟨r2, db2⟩
      cases r2 with
      | error e2 => simp [hcs] at hp
      | ok r2 =>
        rcases r2 with ⟨d, copt⟩
        simp [hcs] at hp

/-- C5 witness: the unreachability of MissingInventoryRecord at the
concrete record-less database. -/
theorem no_missing_inventory_error_witness :
    (place_order dbNoInv 1 none 0 100).1 ≠ .error (.missingInventoryRecord 1) :=
  no_missing_inventory_error dbNoInv 1 none 0 100 1

/-- C6: after every successful Place Order — with the cart lines' keys
pairwise distinct, which the (user, product, variation) uniqueness
constraint of CartItem guarantees — every ordered line that has an
inventory row leaves that row decremented by exactly the line quantity
(the row covered the request), and the user's cart holds no lines. -/
theorem place_order_decrements_inventory_and_clears_cart
    (db : DB) (u : Nat) (code : Option String) (now : Int) (oid : Nat)
    (o : Order) (db1 : DB)
    (h : place_order db u code now oid = (.ok o, db1))
    (hkeys : (db.cart.filter (fun ci => ci.user == u)).Pairwise
      (fun a b => itemKey db a ≠ itemKey db b)) :
    (∀ i ∈ db.cart.filter (fun ci => ci.user == u), ∀ r,
      db.findInventory (itemKey db i) = some r →
      i.quantity ≤ r.quantity ∧
      { r with quantity := r.quantity - i.quantity } ∈ db1.inventory) ∧
    (∀ ci ∈ db1.cart, ci.user ≠ u) := by
  obtain ⟨s, upd, d, copt, db2, -, hc, hcs, -, hdb1⟩ := place_order_ok_inv h
  have hupd : upd = (db.cart.filter (fun ci => ci.user == u)).map
      (fun i => (itemKey db i, i.quantity)) := by
    have := checkLoop_upd db _ 0 [] s upd hc
    simpa using this
  have hfields := finalize_fields db2 u oid (db.cart.filter (fun ci => ci.user == u)) s d copt upd
  have hinv2 : db2.inventory = db.inventory := (couponStep_ok_fields hcs).2.2.1
  have hcart2 : db2.cart = db.cart := (couponStep_ok_fields hcs).2.2.2.1
  constructor
  · intro i hi r hfr
    have hstock := checkLoop_stock db _ 0 [] s upd hc i hi r hfr
    refine ⟨hstock, ?_⟩
    rw [hdb1, hfields.1, hinv2]
    apply applyUpd_hit upd db.inventory (itemKey db i) i.quantity r
    · rw [hupd]
      exact List.mem_map_of_mem _ hi
    · exact List.mem_of_find?_eq_some hfr
    · exact List.find?_some hfr
    · rw [hupd]
      exact List.pairwise_map.mpr hkeys
  · intro ci hci
    rw [hdb1, hfields.2.1, hcart2] at hci
    have hmem := List.mem_filter.mp hci
    simpa using hmem.2

/-- C6 witness: the concrete order of 3 units against a 5-unit inventory
row leaves the row at 2 and the cart empty. -/
theorem place_order_decrements_inventory_and_clears_cart_witness :
    (cartLine1.quantity ≤ invRow1.quantity ∧
      ({ invRow1 with quantity := invRow1.quantity - cartLine1.quantity } : InventoryRec) ∈
        (place_order dbDouble 1 none 0 100).2.inventory) ∧
    (∀ ci ∈ (place_order dbDouble 1 none 0 100).2.cart, ci.user ≠ 1) := by
  have h : place_order dbDouble 1 none 0 100 =
      (.ok (mkOrder 100 1 none 300 0), (place_order dbDouble 1 none 0 100).2) := by
    norm_num [place_order, checkLoop, resolveLine, couponStep, finalize, mkOrder,
      mkOrderItems, applyInventoryUpdates, unitPrice, lineKey, availableQuantity,
      DB.findInventory, DB.findVariant, DB.findProduct, invMatches, dbDouble,
      invRow1, var1, prod1, cartLine1, List.find?, List.filter]
  have hmain := place_order_decrements_inventory_and_clears_cart dbDouble 1 none 0 100
    (mkOrder 100 1 none 300 0) (place_order dbDouble 1 none 0 100).2 h
    (by norm_num [dbDouble, cartLine1, List.filter])
  refine ⟨hmain.1 cartLine1 ?_ invRow1 ?_, hmain.2⟩
  · norm_num [dbDouble, cartLine1, List.filter]
  · norm_num [DB.findInventory, itemKey, resolveLine, lineKey, DB.findProduct,
      DB.findVariant, dbDouble, prod1, var1, cartLine1, invRow1, invMatches, List.find?]

/-- A price the re-order loop reads comes from a product or variant row,
so it is non-negative whenever every stored price is. -/
theorem currentPrice_nonneg (db : DB) (pid : Nat) (vid : Option Nat) (pr : ℚ)
    (hprod : ∀ p ∈ db.products, 0 ≤ p.price)
    (hvar : ∀ v ∈ db.variants, 0 ≤ v.price)
    (h : currentPrice db pid vid = some pr) : 0 ≤ pr := by
  unfold currentPrice at h
  cases hfp : db.findProduct pid with
  | none => simp [hfp] at h
  | some p =>
    simp only [hfp] at h
    cases vid with
    | none =>
      simp only [Option.some.injEq] at h
      subst h
      exact hprod p (List.mem_of_find?_eq_some hfp)
    | some w =>
      cases hfv : db.findVariant w with
      | none => simp [hfv] at h
      | some v =>
        simp only [hfv, Option.some.injEq] at h
        subst h
        exact hvar v (List.mem_of_find?_eq_some hfv)

/-- The re-order subtotal accumulates non-negative contributions. -/
theorem reorderCheck_nonneg (db : DB) (items : List OrderItem) (s t : ℚ)
    (hs : 0 ≤ s)
    (hprod : ∀ p ∈ db.products, 0 ≤ p.price)
    (hvar : ∀ v ∈ db.variants, 0 ≤ v.price)
    (h : reorderCheck db items s = .ok t) : 0 ≤ t := by
  induction items generalizing s with
  | nil =>
    simp only [reorderCheck, Except.ok.injEq] at h
    rw [← h]
    exact hs
  | cons it rest ih =>
    simp only [reorderCheck] at h
    cases hfp : db.findProduct it.product with
    | none => simp [hfp] at h
    | some p =>
      simp only [hfp] at h
      cases hgi : get_inventory db ⟨p.store, p.id, it.variation⟩ with
      | none => simp [hgi] at h
      | some inv =>
        simp only [hgi] at h
        by_cases hlt : inv.quantity < it.quantity
        · rw [if_pos hlt] at h; simp at h
        · rw [if_neg hlt] at h
          cases hcp : currentPrice db it.product it.variation with
          | none => simp [hcp] at h
          | some pr =>
            simp only [hcp] at h
            refine ih _ ?_ h
            have hpr := currentPrice_nonneg db it.product it.variation pr hprod hvar hcp
            have hq : (0 : ℚ) ≤ (it.quantity : ℚ) := by positivity
            nlinarith

/-- Inversion of a successful re-order: the new order row carries the
freshly computed subtotal, discount 0 and total equal to the subtotal. -/
theorem re_order_ok_inv {db : DB} {u oldId newId : Nat} {o : Order} {db1 : DB}
    (h : re_order db u oldId newId = (.ok o, db1)) :
    ∃ old subtotal,
      db.orders.find? (fun x => x.id == oldId && x.user == u) = some old ∧
      reorderCheck db (db.orderItems.filter (fun it => it.order == oldId)) 0 =
        .ok subtotal ∧
      o = { id := newId, user := u, coupon := none, subtotal := subtotal,
            discount_amount := 0, total_amount := subtotal, status := .pending,
            reordered_from := some old.id } := by
  unfold re_order at h
  cases hf : db.orders.find? (fun x => x.id == oldId && x.user == u) with
  | none => rw [hf] at h; simp at h
  | some old =>
    rw [hf] at h
    simp only [] at h
    cases hrc : reorderCheck db (db.orderItems.filter (fun it => it.order == oldId)) 0 with
    | error e => rw [hrc] at h; simp at h
    | ok subtotal =>
      rw [hrc] at h
      simp only [Except.ok.injEq, Prod.mk.injEq] at h
      exact ⟨old, subtotal, rfl, rfl, h.1.symm⟩

/-- C7 counterexample: an order created by Place Order under the uncapped
200-percent coupon has total_amount = -100, a negative total. -/
theorem negative_total_counterexample :
    (place_order dbBig 1 (some "BIG") 5 200).1 =
      .ok { id := 200, user := 1, coupon := some 13, subtotal := 100,
            discount_amount := 200, total_amount := -100, status := .pending,
            reordered_from := none } ∧
    ((-100 : ℚ) < 0) := by
  constructor
  · norm_num [place_order, checkLoop, resolveLine, couponStep, finalize, mkOrder,
      mkOrderItems, applyInventoryUpdates, unitPrice, lineKey, availableQuantity,
      DB.findInventory, DB.findVariant, DB.findProduct, invMatches,
      validate_and_calculate_coupon, validateBody, validateUsageStep,
      DB.findActiveCoupon, Coupon.is_within_date, DB.usageTimes, DB.ensureUsage,
      DB.incrementUsage, couponDiscount, optTruthy, dbBig, couponBig, dbEmpty,
      List.find?, List.filter]
  · norm_num

/-- C7 (amended): every order row created by Place Order satisfies
total_amount = subtotal - discount_amount (which can be negative when the
discount exceeds the subtotal), and every order row created by Re-order
has discount 0, total = subtotal, and a non-negative total whenever every
stored price is non-negative. -/
theorem order_total_equation :
    (∀ (db : DB) (u : Nat) (code : Option String) (now : Int) (oid : Nat)
        (o : Order) (db1 : DB),
      place_order db u code now oid = (.ok o, db1) →
      o.total_amount = o.subtotal - o.discount_amount) ∧
    (∀ (db : DB) (u oldId newId : Nat) (o : Order) (db1 : DB),
      re_order db u oldId newId = (.ok o, db1) →
      o.discount_amount = 0 ∧ o.total_amount = o.subtotal ∧
      ((∀ p ∈ db.products, 0 ≤ p.price) → (∀ v ∈ db.variants, 0 ≤ v.price) →
        0 ≤ o.total_amount)) := by
  constructor
  · intro db u code now oid o db1 h
    obtain ⟨s, upd, d, copt, db2, -, -, -, ho, -⟩ := place_order_ok_inv h
    subst ho
    rfl
  · intro db u oldId newId o db1 h
    obtain ⟨old, subtotal, -, hrc, ho⟩ := re_order_ok_inv h
    subst ho
    refine ⟨rfl, rfl, ?_⟩
    intro hprod hvar
    exact reorderCheck_nonneg db _ 0 subtotal (le_refl 0) hprod hvar hrc

/-- C7 witness: the equation on the concrete coupon order, and the
re-order facts on a concrete successful re-order. -/
theorem order_total_equation_witness :
    ((-100 : ℚ) = 100 - 200) ∧
    ((0 : ℚ) = 0 ∧ (300 : ℚ) = 300 ∧
      ((∀ p ∈ dbReorder.products, 0 ≤ p.price) →
        (∀ v ∈ dbReorder.variants, 0 ≤ v.price) →
        (0 : ℚ) ≤ 300)) := by
  have h1 := order_total_equation.1 dbBig 1 (some "BIG") 5 200
    { id := 200, user := 1, coupon := some 13, subtotal := 100, discount_amount := 200,
      total_amount := -100, status := .pending, reordered_from := none }
    (place_order dbBig 1 (some "BIG") 5 200).2
    (by norm_num [place_order, checkLoop, resolveLine, couponStep, finalize, mkOrder,
      mkOrderItems, applyInventoryUpdates, unitPrice, lineKey, availableQuantity,
      DB.findInventory, DB.findVariant, DB.findProduct, invMatches,
      validate_and_calculate_coupon, validateBody, validateUsageStep,
      DB.findActiveCoupon, Coupon.is_within_date, DB.usageTimes, DB.ensureUsage,
      DB.incrementUsage, couponDiscount, optTruthy, dbBig, couponBig, dbEmpty,
      List.find?, List.filter])
  have h2 := order_total_equation.2 dbReorder 1 5 300
    { id := 300, user := 1, coupon := none, subtotal := 300, discount_amount := 0,
      total_amount := 300, status := .pending, reordered_from := some 5 }
    (re_order dbReorder 1 5 300).2
    (by norm_num [re_order, reorderCheck, reorderItems, reorderDeduct, get_inventory,
      currentPrice, DB.findInventory, DB.findVariant, DB.findProduct, invMatches,
      dbReorder, dbConfirmed, invRow1, var1, prod1, dbEmpty, List.find?, List.filter])
  exact ⟨h1, h2⟩

/-- C8 counterexample: validating the expired-but-active coupon EXP at
now = 20 fails with CouponExpired yet hands back the database unchanged —
the coupon is still active, so the deactivation did not persist. -/
theorem lazy_deactivation_counterexample :
    validate_and_calculate_coupon dbExp "EXP" 1 1000 20 =
      (.error .couponExpired, dbExp) ∧
    dbExp.findActiveCoupon "EXP" = some couponExp ∧
    couponExp.active = true := by
  refine ⟨?_, ?_, rfl⟩
  · norm_num [validate_and_calculate_coupon, validateBody, validateUsageStep,
      DB.findActiveCoupon, Coupon.is_within_date, DB.deactivateCoupon, dbExp,
      couponExp, dbEmpty, List.find?]
  · norm_num [DB.findActiveCoupon, dbExp, couponExp, dbEmpty, List.find?]

/-- C8 (amended): for every active coupon found outside its date window,
the validation body does flip active=false in-transaction, but the raised
CouponExpired error rolls that write back to the savepoint, so the caller
observes the CouponExpired failure together with a completely unchanged
database — the flip does not persist and no other field changes either. -/
theorem expired_coupon_rollback (db : DB) (code : String) (u : Nat) (s : ℚ)
    (now : Int) (c : Coupon)
    (hfind : db.findActiveCoupon code = some c)
    (hdate : c.is_within_date now = false) :
    validateBody db code u s now = (.error .couponExpired, db.deactivateCoupon c.id) ∧
    validate_and_calculate_coupon db code u s now = (.error .couponExpired, db) := by
  have hbody : validateBody db code u s now =
      (.error .couponExpired, db.deactivateCoupon c.id) := by
    simp only [validateBody, hfind]
    rw [if_pos (by simp [hdate])]
  refine ⟨hbody, ?_⟩
  unfold validate_and_calculate_coupon
  rw [hbody]

/-- C8 witness: the rollback facts at the concrete expired coupon. -/
theorem expired_coupon_rollback_witness :
    validateBody dbExp "EXP" 1 1000 20 =
      (.error .couponExpired, dbExp.deactivateCoupon couponExp.id) ∧
    validate_and_calculate_coupon dbExp "EXP" 1 1000 20 =
      (.error .couponExpired, dbExp) :=
  expired_coupon_rollback dbExp "EXP" 1 1000 20 couponExp
    (by norm_num [DB.findActiveCoupon, dbExp, couponExp, dbEmpty, List.find?])
    (by norm_num [Coupon.is_within_date, couponExp])

/-- A variant no processed item addresses survives the restore loop
unchanged (also when the loop stops early on a variant-less item). -/
theorem restoreItems_frame (items : List OrderItem) (db : DB) (v : Variant)
    (hv : v ∈ db.variants)
    (hnone : ∀ j ∈ items, ∀ w, j.variation = some w → v.id ≠ w) :
    v ∈ (restoreItems db items).2.variants := by
  induction items generalizing db with
  | nil => simpa [restoreItems] using hv
  | cons j rest ih =>
    simp only [restoreItems]
    cases hj : j.variation with
    | none => simpa using hv
    | some w =>
      have hne : v.id ≠ w := hnone j (List.mem_cons_self _ _) w hj
      refine ih _ ?_ ?_
      · have heq : (fun x =>
            if x.id == w then { x with quantity := x.quantity + j.quantity } else x) v = v := by
          simp [hne]
        rw [← heq]
        exact List.mem_map_of_mem _ hv
      · intro j2 hj2 w2 hw2
        exact hnone j2 (List.mem_cons_of_mem _ hj2) w2 hw2

/-- An item of the restore loop whose variant id is unique in the order
adds exactly its quantity to that variant's counter, provided every item
carries a variant so the loop reaches it. -/
theorem restoreItems_hit (items : List OrderItem) (db : DB) (it : OrderItem)
    (vid : Nat) (hmem : it ∈ items) (hvid : it.variation = some vid)
    (hall : ∀ j ∈ items, j.variation ≠ none)
    (hdist : items.Pairwise (fun a b => a.variation ≠ b.variation))
    (v : Variant) (hv : v ∈ db.variants) (hid : v.id = vid) :
    ({ v with quantity := v.quantity + it.quantity } : Variant) ∈
      (restoreItems db items).2.variants := by
  induction items generalizing db with
  | nil => simp at hmem
  | cons j rest ih =>
    rcases List.pairwise_cons.mp hdist with ⟨hhead, hrest⟩
    cases hj : j.variation with
    | none => exact absurd hj (hall j (List.mem_cons_self _ _))
    | some w =>
      simp only [restoreItems, hj]
      rcases List.mem_cons.mp hmem with hisj | htail
      · subst hisj
        have hw : w = vid := by
          rw [hj] at hvid
          exact Option.some.inj hvid
        subst hw
        apply restoreItems_frame
        · have heq : (fun x =>
              if x.id == w then { x with quantity := x.quantity + it.quantity } else x) v =
              { v with quantity := v.quantity + it.quantity } := by
            simp [hid]
          rw [← heq]
          exact List.mem_map_of_mem _ hv
        · intro j2 hj2 w2 hw2
          have hne := hhead j2 hj2
          rw [hj, hw2] at hne
          intro hcontra
          apply hne
          rw [← hcontra, hid]
      · have hwne : v.id ≠ w := by
          have hne := hhead it htail
          rw [hj, hvid] at hne
          intro hcontra
          apply hne
          rw [← hid, hcontra]
        refine ih _ htail (fun j2 hj2 => hall j2 (List.mem_cons_of_mem _ hj2)) hrest ?_
        have heq : (fun x =>
            if x.id == w then { x with quantity := x.quantity + j.quantity } else x) v = v := by
          simp [hwne]
        rw [← heq]
        exact List.mem_map_of_mem _ hv

/-- C9 counterexample: cancelling the confirmed order re-adds the 3 units
to the ProductVariant counter (2 becomes 5) while the Inventory row stays
at 2 — the claimed re-addition to the Inventory Record does not happen. -/
theorem restore_target_counterexample :
    (update_order_status dbConfirmed 5 .cancelled).2.inventory =
      [{ invRow1 with quantity := 2 }] ∧
    (update_order_status dbConfirmed 5 .cancelled).2.variants = [var1] := by
  constructor <;>
    norm_num [update_order_status, restoreItems, deductItems, dbConfirmed,
      invRow1, var1, prod1, dbEmpty, DB.findVariant, List.find?, List.filter]

/-- C9 (amended): a confirmed-to-cancelled/returned transition re-adds each
order item's quantity to its ProductVariant counter (given every item has
a variant and the order's variant ids are distinct) and leaves every
Inventory row untouched; a transition from any non-confirmed status
restores nothing — only the order's status row changes. -/
theorem cancel_restores_variant_stock :
    (∀ (db : DB) (oid : Nat) (st : OrderStatus) (o : Order),
      db.orders.find? (fun x => x.id == oid) = some o →
      o.status = .confirmed → (st = .cancelled ∨ st = .returned) →
      (∀ j ∈ db.orderItems.filter (fun it => it.order == oid), j.variation ≠ none) →
      (db.orderItems.filter (fun it => it.order == oid)).Pairwise
        (fun a b => a.variation ≠ b.variation) →
      (∀ it ∈ db.orderItems.filter (fun itm => itm.order == oid), ∀ vid,
        it.variation = some vid → ∀ v ∈ db.variants, v.id = vid →
        ({ v with quantity := v.quantity + it.quantity } : Variant) ∈
          (update_order_status db oid st).2.variants) ∧
      (update_order_status db oid st).2.inventory = db.inventory) ∧
    (∀ (db : DB) (oid : Nat) (st : OrderStatus) (o : Order),
      db.orders.find? (fun x => x.id == oid) = some o →
      o.status ≠ .confirmed → (st = .cancelled ∨ st = .returned) →
      (update_order_status db oid st).2 =
        { db with orders := db.orders.map (fun x =>
            if x.id == oid then { x with status := st } else x) }) := by
  constructor
  · intro db oid st o hf hst hcr hall hdist
    have hrun : update_order_status db oid st =
        restoreItems
          { db with orders := db.orders.map (fun x =>
              if x.id == oid then { x with status := st } else x) }
          (db.orderItems.filter (fun it => it.order == oid)) := by
      unfold update_order_status
      rw [hf]
      simp only []
      rw [if_neg (fun hcon => hcon.1 hst), if_pos ⟨hst, hcr⟩]
    refine ⟨?_, update_order_status_inventory db oid st⟩
    intro it hit vid hvid v hv hid
    rw [hrun]
    exact restoreItems_hit _ _ it vid hit hvid hall hdist v hv hid
  · intro db oid st o hf hst hcr
    unfold update_order_status
    rw [hf]
    simp only []
    rw [if_neg (by intro hcon; rcases hcr with h | h <;> simp [h] at hcon),
      if_neg (fun hcon => hst hcon.1)]

/-- C9 witness: the restore facts at the concrete confirmed order, and the
no-restore fact at the same order still pending. -/
theorem cancel_restores_variant_stock_witness :
    (var1 ∈ (update_order_status dbConfirmed 5 .cancelled).2.variants ∧
      (update_order_status dbConfirmed 5 .cancelled).2.inventory =
        dbConfirmed.inventory) ∧
    (update_order_status dbPending 5 .cancelled).2 =
      { dbPending with orders := dbPending.orders.map (fun x =>
          if x.id == 5 then { x with status := .cancelled } else x) } := by
  have hmain := cancel_restores_variant_stock.1 dbConfirmed 5 .cancelled
    { id := 5, user := 1, coupon := none, subtotal := 300, discount_amount := 0,
      total_amount := 300, status := .confirmed, reordered_from := none }
    (by norm_num [dbConfirmed, dbEmpty, List.find?]) rfl (Or.inl rfl)
    (by simp [dbConfirmed, dbEmpty, List.filter])
    (by simp [dbConfirmed, dbEmpty, List.filter])
  constructor
  · constructor
    · have hv := hmain.1
        { order := 5, product := 1, variation := some 1, quantity := 3, price := 100 }
        (by norm_num [dbConfirmed, dbEmpty, List.filter]) 1 rfl
        ({ var1 with quantity := 2 } : Variant)
        (by norm_num [dbConfirmed, dbEmpty]) rfl
      simpa [var1] using hv
    · exact hmain.2
  · exact cancel_restores_variant_stock.2 dbPending 5 .cancelled
      { id := 5, user := 1, coupon := none, subtotal := 300, discount_amount := 0,
        total_amount := 300, status := .pending, reordered_from := none }
      (by norm_num [dbPending, dbConfirmed, dbEmpty, List.find?]) (by simp) (Or.inl rfl)

/-- A failing coupon preview hands back exactly the state it started from. -/
theorem preview_err_frame {db : DB} {u : Nat} {code : String} {now : Int}
    {e : ApplyErr} {db1 : DB}
    (h : cart_apply_coupon db u code now = (.error e, db1)) : db1 = db := by
  unfold cart_apply_coupon at h
  by_cases hemp : (db.cart.filter (fun ci => ci.user == u)).isEmpty
  · rw [if_pos hemp] at h
    simp only [Prod.mk.injEq] at h
    exact h.2.symm
  · rw [if_neg hemp] at h
    cases hs : cartSubtotal db (db.cart.filter (fun ci => ci.user == u)) with
    | none =>
      simp only [hs, Prod.mk.injEq] at h
      exact h.2.symm
    | some s =>
      simp only [hs] at h
      rcases hv : validate_and_calculate_coupon db code u s now with ⟨r, db2⟩
      cases r with
      | ok r =>
        rcases r with ⟨d, c⟩
        simp [hv] at h
      | error e2 =>
        simp only [hv, Prod.mk.injEq] at h
        rw [← h.2]
        exact validate_err_frame hv

/-- A successful coupon preview is a successful validation on the computed
cart subtotal. -/
theorem preview_ok_inv {db : DB} {u : Nat} {code : String} {now : Int}
    {t : ℚ × ℚ × ℚ} {db1 : DB}
    (h : cart_apply_coupon db u code now = (.ok t, db1)) :
    ∃ s d c, validate_and_calculate_coupon db code u s now = (.ok (d, c), db1) := by
  unfold cart_apply_coupon at h
  by_cases hemp : (db.cart.filter (fun ci => ci.user == u)).isEmpty
  · rw [if_pos hemp] at h
    simp at h
  · rw [if_neg hemp] at h
    cases hs : cartSubtotal db (db.cart.filter (fun ci => ci.user == u)) with
    | none => simp [hs] at h
    | some s =>
      simp only [hs] at h
      rcases hv : validate_and_calculate_coupon db code u s now with ⟨r, db2⟩
      cases r with
      | error e2 => simp [hv] at h
      | ok r =>
        rcases r with ⟨d, c⟩
        simp only [hv, Prod.mk.injEq] at h
        exact ⟨s, d, c, by rw [h.2] at hv; exact hv⟩

/-- The get_or_create appends the fresh zero row when none exists. -/
theorem ensureUsage_mem_new (db : DB) (cid u : Nat)
    (habs : db.usages.find? (fun x => x.coupon == cid && x.user == u) = none) :
    (⟨cid, u, 0⟩ : CouponUsage) ∈ (db.ensureUsage cid u).usages := by
  unfold DB.ensureUsage
  rw [habs]
  simp

/-- C10 counterexample: previewing coupon MIN (minimum 10000) on a cart
worth 300 fails with OrderBelowMinimum and the database comes back
unchanged with its empty usages table — no (coupon, user) row with
times_used = 0 is created when validation fails. -/
theorem no_usage_row_on_failure_counterexample :
    dbMin.usages = [] ∧
    cart_apply_coupon dbMin 1 "MIN" 5 =
      (.error (.coupon .orderBelowMinimum), dbMin) := by
  refine ⟨rfl, ?_⟩
  norm_num [cart_apply_coupon, cartSubtotal, resolveLine, DB.findProduct,
    DB.findVariant, unitPrice, validate_and_calculate_coupon, validateBody,
    DB.findActiveCoupon, Coupon.is_within_date, validateUsageStep, DB.usageTimes,
    DB.ensureUsage, couponDiscount, optTruthy, dbMin, couponMin, prod1, dbEmpty,
    List.find?, List.filter]

/-- C10 (amended): the coupon preview never increments any pair's
times_used; when it succeeds for a pair that had no usage row, a row with
times_used = 0 persists; when validation fails, the state comes back
unchanged, so no new row persists — the in-transaction get_or_create is
rolled back together with the error. -/
theorem preview_usage_readonly :
    (∀ (db : DB) (u : Nat) (code : String) (now : Int) (cid u2 : Nat),
      (cart_apply_coupon db u code now).2.usageTimes cid u2 =
        db.usageTimes cid u2) ∧
    (∀ (db : DB) (u : Nat) (code : String) (now : Int) (t : ℚ × ℚ × ℚ)
        (db1 : DB) (c : Coupon),
      cart_apply_coupon db u code now = (.ok t, db1) →
      db.findActiveCoupon code = some c →
      db.usages.find? (fun x => x.coupon == c.id && x.user == u) = none →
      (⟨c.id, u, 0⟩ : CouponUsage) ∈ db1.usages) ∧
    (∀ (db : DB) (u : Nat) (code : String) (now : Int) (e : ApplyErr) (db1 : DB),
      cart_apply_coupon db u code now = (.error e, db1) → db1 = db) := by
  refine ⟨?_, ?_, fun db u code now e db1 h => preview_err_frame h⟩
  · intro db u code now cid u2
    rcases hp : cart_apply_coupon db u code now with ⟨r, db1⟩
    cases r with
    | error e => rw [preview_err_frame hp]
    | ok t =>
      obtain ⟨s, d, c, hv⟩ := preview_ok_inv hp
      obtain ⟨-, -, -, -, hdb1, -⟩ := validate_ok_inv hv
      rw [hdb1]
      exact ensureUsage_usageTimes db c.id u cid u2
  · intro db u code now t db1 c h hfind habs
    obtain ⟨s, d, c2, hv⟩ := preview_ok_inv h
    obtain ⟨hfind2, -, -, -, hdb1, -⟩ := validate_ok_inv hv
    have hc : c2 = c := by
      rw [hfind] at hfind2
      exact (Option.some.inj hfind2).symm
    subst hc
    rw [hdb1]
    exact ensureUsage_mem_new db c2.id u habs

/-- C10 witness: read-only and rollback at the failing preview, row
creation at the succeeding one. -/
theorem preview_usage_readonly_witness :
    (cart_apply_coupon dbMin 1 "MIN" 5).2.usageTimes 15 1 = dbMin.usageTimes 15 1 ∧
    (⟨11, 7, 0⟩ : CouponUsage) ∈ (cart_apply_coupon dbSave 7 "SAVE10" 5).2.usages ∧
    (cart_apply_coupon dbMin 1 "MIN" 5).2 = dbMin := by
  refine ⟨preview_usage_readonly.1 dbMin 1 "MIN" 5 15 1, ?_, ?_⟩
  · have happ : cart_apply_coupon dbSave 7 "SAVE10" 5 =
        (.ok (1000, 50, 950), (cart_apply_coupon dbSave 7 "SAVE10" 5).2) := by
      norm_num [cart_apply_coupon, cartSubtotal, resolveLine, DB.findProduct,
        DB.findVariant, unitPrice, validate_and_calculate_coupon, validateBody,
        DB.findActiveCoupon, Coupon.is_within_date, validateUsageStep, DB.usageTimes,
        DB.ensureUsage, couponDiscount, optTruthy, DB.distinctUsersUsed, dbSave,
        couponSave, prod1, cartLineSave, dbEmpty, List.find?, List.filter]
    have hfind : dbSave.findActiveCoupon "SAVE10" = some couponSave := by
      norm_num [DB.findActiveCoupon, dbSave, couponSave, dbEmpty, List.find?]
    have habs : dbSave.usages.find?
        (fun x => x.coupon == couponSave.id && x.user == 7) = none := by
      norm_num [dbSave, dbEmpty, List.find?]
    have hrow := preview_usage_readonly.2.1 dbSave 7 "SAVE10" 5 (1000, 50, 950)
      (cart_apply_coupon dbSave 7 "SAVE10" 5).2 couponSave happ hfind habs
    simpa [couponSave] using hrow
  · exact preview_usage_readonly.2.2 dbMin 1 "MIN" 5 (.coupon .orderBelowMinimum)
      (cart_apply_coupon dbMin 1 "MIN" 5).2
      (by norm_num [cart_apply_coupon, cartSubtotal, resolveLine, DB.findProduct,
        DB.findVariant, unitPrice, validate_and_calculate_coupon, validateBody,
        DB.findActiveCoupon, Coupon.is_within_date, validateUsageStep, DB.usageTimes,
        DB.ensureUsage, couponDiscount, optTruthy, dbMin, couponMin, prod1, dbEmpty,
        List.find?, List.filter])

end ECom
